import Mathlib

/-! # gorb `codegen/method.go`: glue-code synthesis for one callable member

A shallow embedding of `src/codegen/method.go`.  Go strings are Lean strings,
`fmt.Sprintf` with `%s` is concatenation, `%d` is the decimal rendering of a
natural number, and the `text/template` program `tplMethodData` is unrolled
into the concatenation it performs (with the `{{-` trim markers applied).

Code that panics in Go (an index out of range, a nil owner, a negative
`make` length) yields `Fault.abort`; the alias loop of `typeToGo`, which has
no bound in the source, runs on fuel and yields `Fault.stall` when the fuel
is used up.
-/

namespace Codegen

/-- The two values of the Go type `scope`. -/
inductive scope where
  | instanceScope
  | classScope
deriving DecidableEq, Repr

/-- The owning class of a member.  The Go type `class` is declared in another
file of the package; only its methods `Name()` and `VarName()` are used here,
and both are taken as data. -/
structure Class where
  Name : String
  VarName : String
deriving DecidableEq, Repr

/-- How an evaluation can end without a value: `abort` is a Go panic,
`stall` is the alias loop of `typeToGo` still running when the fuel is gone. -/
inductive Fault where
  | abort
  | stall
deriving DecidableEq, Repr

/-- Package-level helper functions of `codegen` that `method.go` calls and
that are declared in other files of the package, together with the `%q`
verb of `fmt` (taken as `quote`). -/
structure Helpers where
  isExported : String → Bool
  isExternal : String → Bool
  packageName : String → String
  insertPkg : String → String → String
  indirection : String → Int
  capitalize : String → String
  underscore : String → String
  quote : String → String

/-- The fields of `g.pkg` that `method.go` reads or writes. -/
structure Pkg where
  name : String
  imports : String → String
  usedImports : String → Bool

/-- The generator `g`: its resolution services (declared in other files of
the package and taken as data), its package record and its output buffers.
`preamble` records the calls of `writePreambleFunc`, which is declared
elsewhere. -/
structure Generator where
  isValueType : String → Bool
  resolvedType : String → String
  findClass : String → Option Class
  returnTypes : String → List String
  revTypeAliasMap : String → String
  importToModule : String → String
  pkg : Pkg
  init : String
  methods : String
  preamble : List (String × Nat)

/-- The Go struct `method`; the generator pointer `m.g` is passed to every
function as the separate argument `g`. -/
structure method where
  cls : Option Class
  indirection : Int
  returnClass : String
  ctor : Bool
  name : String
  exportName : String
  scope : scope
  args : List String
  argTypes : List String
  returnTypes : List String
  blockArgs : List String
  blockArgTypes : List String
  blockReturnTypes : List String

/-- Indexing a Go slice: out of range is a panic. -/
def index (xs : List String) (n : Nat) : Except Fault String :=
  match xs[n]? with
  | some x => .ok x
  | none => .error .abort

/-- The expression `xs[len(xs)-1]`: a panic on the empty slice. -/
def lastEntry (xs : List String) : Except Fault String :=
  match xs.getLast? with
  | some x => .ok x
  | none => .error .abort

/-- Go `strings.Join`. -/
def Join : List String → String → String
  | [], _ => ""
  | [a], _ => a
  | a :: b :: rest, sep => a ++ sep ++ Join (b :: rest) sep

/-- The statement `usedImports[k] = true`. -/
def markUsed (g : Generator) (k : String) : Generator :=
  { g with pkg := { g.pkg with
      usedImports := fun x => if x = k then true else g.pkg.usedImports x } }

def HasBlock (m : method) : Bool :=
  decide (m.blockArgs.length > 0)

def HasBlockReturnType (m : method) : Bool :=
  decide (m.blockReturnTypes.length > 0)

def FuncName (m : method) : String :=
  let s := if m.scope = scope.classScope then "c" else "i"
  let pre := "g_" ++ s ++ "method_"
  let pre := match m.cls with
    | some c => pre ++ c.Name
    | none => pre
  pre ++ "_" ++ m.name

/-- The loop of `BlockSig`: `n + " " + m.blockArgTypes[i]` for each callback
parameter. -/
def blockSigArgs (m : method) : Nat → List String → Except Fault (List String)
  | _, [] => .ok []
  | i, n :: ns => do
    let t ← index m.blockArgTypes i
    let rest ← blockSigArgs m (i + 1) ns
    pure ((n ++ " " ++ t) :: rest)

def BlockSig (m : method) : Except Fault String := do
  let args ← blockSigArgs m 0 m.blockArgs
  pure ("block__" ++ FuncName m ++ "(" ++ Join args ", " ++ ") ("
    ++ Join m.blockReturnTypes ", " ++ ")")

/-- The loop of `RbBlockArgs`. -/
def rbBlockArgsLoop (g : Generator) (m : method) :
    Nat → List String → Except Fault (List String)
  | _, [] => .ok []
  | i, a :: as => do
    let t ← index m.blockArgTypes i
    let pre := if g.isValueType t then "*" else ""
    let rest ← rbBlockArgsLoop g m (i + 1) as
    pure ((pre ++ "rb_" ++ a) :: rest)

def RbBlockArgs (g : Generator) (m : method) : Except Fault String := do
  let outargs ← rbBlockArgsLoop g m 0 m.blockArgs
  pure (Join outargs ", ")

def BlockArgsList (m : method) : List String :=
  m.blockArgs

def BlockArgToRb (h : Helpers) (g : Generator) (m : method) (n : Nat) :
    Except Fault (String × Generator) := do
  let ret ← index m.blockArgs n
  let typ ← index m.blockArgTypes n
  let r := g.resolvedType typ
  if r ≠ "" ∧ h.isExported r = true then
    let v := match g.findClass r with
      | some c => c.VarName
      | none => "rb_cObject"
    let ret := if m.indirection = 0 then "&" ++ ret else ret
    pure ("gorb.StructValue(" ++ v ++ ", unsafe.Pointer(" ++ ret ++ "))", g)
  else if h.isExternal r = true then
    let ret := if m.indirection = 0 then "&" ++ ret else ret
    let g1 := markUsed g (g.pkg.imports (h.packageName r))
    pure ("gorb.StructValue(gorb.ObjAtPath(\"" ++ g.importToModule r
      ++ "\"), unsafe.Pointer(" ++ ret ++ "))", g1)
  else
    let t0 ← index (g.returnTypes typ) 0
    pure ("gorb." ++ t0 ++ "(" ++ ret ++ "))", g)

def BlockReceiverVars (m : method) : Except Fault String := do
  let l ← lastEntry m.blockReturnTypes
  if l = "error" then pure "ret, err" else pure "ret"

def ResolvedReturnType (g : Generator) (m : method) : String :=
  match m.returnTypes with
  | [] => "nil"
  | t :: _ => g.resolvedType t

def ResolvedReturnClass (g : Generator) (m : method) : String :=
  g.resolvedType m.returnClass

/-- The call `m.class.Name()`, which reads through the owner pointer: a panic
when the descriptor has no owner. -/
def ClassName (m : method) : Except Fault String :=
  match m.cls with
  | some c => .ok c.Name
  | none => .error .abort

/-- The call `m.class.VarName()`, which reads through the owner pointer: a
panic when the descriptor has no owner. -/
def ClassVar (m : method) : Except Fault String :=
  match m.cls with
  | some c => .ok c.VarName
  | none => .error .abort

def Name (h : Helpers) (m : method) : String :=
  h.capitalize m.name

def RubyName (h : Helpers) (g : Generator) (m : method) : String :=
  let name := h.underscore m.name
  if name = "string" then "to_s"
  else if ResolvedReturnType g m = "bool" then name ++ "?"
  else name

def ExportRubyName (h : Helpers) (g : Generator) (m : method) : String :=
  if m.exportName ≠ "" then m.exportName else RubyName h g m

def Scope (m : method) : String :=
  if m.scope = scope.classScope then "Class" else ""

def RubyArgs (m : method) : String :=
  Join ("self" :: m.args) ", "

/-- The loop of `GoArgs`. -/
def goArgsLoop (g : Generator) (m : method) :
    Nat → List String → Except Fault (List String)
  | _, [] => .ok []
  | i, a :: as => do
    let t ← index m.argTypes i
    let pre := if g.isValueType t then "*" else ""
    let rest ← goArgsLoop g m (i + 1) as
    pure ((pre ++ "go_" ++ a) :: rest)

def GoArgs (g : Generator) (m : method) : Except Fault String := do
  let outargs ← goArgsLoop g m 0 m.args
  let outargs := if HasBlock m then outargs ++ ["block__" ++ FuncName m] else outargs
  pure (Join outargs ", ")

def ArgsList (m : method) : List String :=
  m.args

def ReceiverVars (m : method) : Except Fault String := do
  let l ← lastEntry m.returnTypes
  if l = "error" then pure "ret, err" else pure "ret"

def RaiseError (m : method) : Except Fault String :=
  if m.returnTypes.length > 0 then do
    let rv ← ReceiverVars m
    if rv ≠ "ret" then pure "\n  gorb.RaiseError(err)" else pure ""
  else pure ""

def ReturnTypeToRuby (h : Helpers) (g : Generator) (m : method) :
    Except Fault (String × Generator) :=
  if m.returnTypes.length = 0 then pure ("C.Qnil", g)
  else
    let ret := "ret"
    let r := ResolvedReturnClass g m
    if r ≠ "" ∧ h.isExported r = true then
      let v := match g.findClass r with
        | some c => c.VarName
        | none => "rb_cObject"
      let ret := if m.indirection = 0 then "&" ++ ret else ret
      pure ("gorb.StructValue(" ++ v ++ ", unsafe.Pointer(" ++ ret ++ "))", g)
    else
      let r := ResolvedReturnType g m
      if h.isExternal r = true then
        let ret := if m.indirection = 0 then "&" ++ ret else ret
        let g1 := markUsed g (g.pkg.imports (h.packageName r))
        pure ("gorb.StructValue(gorb.ObjAtPath(\"" ++ g.importToModule r
          ++ "\"), unsafe.Pointer(" ++ ret ++ "))", g1)
      else do
        let t0 ← index (g.returnTypes (ResolvedReturnType g m)) 0
        pure ("gorb." ++ t0 ++ "(" ++ ret ++ "))", g)

/-- The alias loop of `typeToGo`, `for v != "" { if rev[v] == "" { break };
v = rev[v] }`, on fuel: `none` when the fuel runs out first. -/
def aliasChase (rev : String → String) : Nat → String → Option String
  | 0, _ => none
  | fuel + 1, v =>
    if v = "" then some v
    else if rev v = "" then some v
    else aliasChase rev fuel (rev v)

/-- The expression `strings.Join(make([]string, n), "&")`; `make` panics on a
negative length. -/
def ampersands (n : Int) : Except Fault String :=
  if n < 0 then .error .abort
  else .ok (Join (List.replicate n.toNat "") "&")

/-- Lines 244 to 253 of `typeToGo`: the type name `v` after the alias loop
and `insertPkg` for an exported `typ`, and `typ` itself otherwise. -/
def castName (fuel : Nat) (h : Helpers) (g : Generator) (typ : String) :
    Except Fault String :=
  if h.isExported typ = true then
    match aliasChase g.revTypeAliasMap fuel typ with
    | some v => .ok (h.insertPkg v g.pkg.name)
    | none => .error .stall
  else .ok typ

/-- Lines 242 to 262 of `typeToGo`: the conversion routine applied to `val`
and cast to the alias-resolved type, before the indirection markers are
prepended. -/
def castExpr (fuel : Nat) (h : Helpers) (g : Generator) (typ : String) (val : String) :
    Except Fault String := do
  let t := g.returnTypes typ
  let t1 ← index t 1
  let out := "gorb." ++ t1 ++ "(" ++ val ++ ")"
  let v ← castName fuel h g typ
  if t1 = "GoStruct" then
    let v := if h.indirection v = 0 then "*" ++ v else v
    pure ("(" ++ v ++ ")(" ++ out ++ ")")
  else pure (v ++ "(" ++ out ++ ")")

def typeToGo (fuel : Nat) (h : Helpers) (g : Generator) (m : method)
    (typ : String) (val : String) : Except Fault String := do
  let out ← castExpr fuel h g typ val
  let amp ← ampersands m.indirection
  pure (amp ++ out)

def BlockReturnTypeToGo (fuel : Nat) (h : Helpers) (g : Generator) (m : method) :
    Except Fault String := do
  let typ ← index m.blockReturnTypes 0
  typeToGo fuel h g m typ "ret"

def ArgToGo (fuel : Nat) (h : Helpers) (g : Generator) (m : method) (n : Nat) :
    Except Fault String := do
  let typ ← index m.argTypes n
  let val ← index m.args n
  typeToGo fuel h g m typ val

def ReturnTypeToGo (fuel : Nat) (h : Helpers) (g : Generator) (m : method) :
    Except Fault String := do
  let typ ← index m.returnTypes 0
  typeToGo fuel h g m typ "val"

def HasReturnType (m : method) : Bool :=
  decide (m.returnTypes.length > 0)

def FnReceiver (g : Generator) (m : method) : String :=
  if m.scope = scope.classScope then g.pkg.name else "go_obj"

def RubyEnumArgs (h : Helpers) (g : Generator) (m : method) : String :=
  Join ("self" :: ("gorb.StringValue(" ++ h.quote (RubyName h g m) ++ ")") :: m.args) ", "

/-- The `range` over `.ArgsList` of the glue function: one line
`go_<v> := <ArgToGo i>` for each parameter. -/
def rangeArgs (fuel : Nat) (h : Helpers) (g : Generator) (m : method) :
    Nat → List String → Except Fault String
  | _, [] => .ok ""
  | i, v :: vs => do
    let s ← ArgToGo fuel h g m i
    let rest ← rangeArgs fuel h g m (i + 1) vs
    pure ("\n\tgo_" ++ v ++ " := " ++ s ++ rest)

/-- The `range` over `.BlockArgsList` of the trampoline: one line
`rb_<v> := <BlockArgToRb i>` for each callback parameter. -/
def rangeBlockArgs (h : Helpers) (m : method) :
    Generator → Nat → List String → Except Fault (String × Generator)
  | g, _, [] => .ok ("", g)
  | g, i, v :: vs => do
    let (s, g1) ← BlockArgToRb h g m i
    let (rest, g2) ← rangeBlockArgs h m g1 (i + 1) vs
    pure ("\n\trb_" ++ v ++ " := " ++ s ++ rest, g2)

/-- Lines 289 to 302 of the template `tplMethodData`: the export comment, the
signature, the enumerator check, the receiver line and the parameter
conversions of the glue function. -/
def gluePrologue (fuel : Nat) (h : Helpers) (g : Generator) (m : method) :
    Except Fault String := do
  let head := "\n//export " ++ FuncName m ++ "\nfunc " ++ FuncName m ++ "("
    ++ RubyArgs m ++ " uintptr) uintptr \x7b"
  let enum := if HasBlock m = true then
      "\n\tif e := gorb.EnumFor(" ++ RubyEnumArgs h g m
        ++ "); e != C.Qnil \x7b\n\t\treturn e\n\t\x7d"
    else ""
  let recv ← if Scope m ≠ "Class" then do
      let c ← ClassName m
      pure ("\n\t" ++ FnReceiver g m ++ " := g_val2ptr_" ++ c ++ "(self)")
    else (.ok "" : Except Fault String)
  let conv ← rangeArgs fuel h g m 0 (ArgsList m)
  pure (head ++ enum ++ recv ++ conv)

/-- The text `{{.FnReceiver}}.{{.Name}}({{.GoArgs}})` of lines 304 and 307:
the call of the native member. -/
def nativeCall (h : Helpers) (g : Generator) (m : method) : Except Fault String := do
  let ga ← GoArgs g m
  pure (FnReceiver g m ++ "." ++ Name h m ++ "(" ++ ga ++ ")")

/-- Lines 289 to 310 of the template `tplMethodData`: the glue function. -/
def tplGlue (fuel : Nat) (h : Helpers) (g : Generator) (m : method) :
    Except Fault (String × Generator) := do
  let pro ← gluePrologue fuel h g m
  if HasReturnType m = true then do
    let rv ← ReceiverVars m
    let call ← nativeCall h g m
    let re ← RaiseError m
    let (rt, g1) ← ReturnTypeToRuby h g m
    pure (pro ++ "\n\t" ++ rv ++ " := " ++ call ++ re ++ "\n\treturn " ++ rt
      ++ "\n\x7d", g1)
  else do
    let call ← nativeCall h g m
    let re ← RaiseError m
    pure (pro ++ "\n\t" ++ call ++ re ++ "\n\treturn C.Qnil" ++ "\n\x7d", g)

/-- Lines 311 to 324 of the template `tplMethodData`: the trampoline. -/
def tplBlock (fuel : Nat) (h : Helpers) (g : Generator) (m : method) :
    Except Fault (String × Generator) :=
  if HasBlock m = true then do
    let sig ← BlockSig m
    let (conv, g1) ← rangeBlockArgs h m g 0 (BlockArgsList m)
    if HasBlockReturnType m = true then do
      let ra ← RbBlockArgs g1 m
      let rt ← BlockReturnTypeToGo fuel h g1 m
      pure ("\n\nfunc " ++ sig ++ " \x7b" ++ conv ++ "\n\tret := gorb.Yield(" ++ ra
        ++ ")\n\treturn " ++ rt ++ "\n\x7d", g1)
    else do
      let ra ← RbBlockArgs g1 m
      pure ("\n\nfunc " ++ sig ++ " \x7b" ++ conv ++ "\n\tgorb.Yield(" ++ ra
        ++ ")\n\x7d", g1)
  else pure ("", g)

/-- Executing the template `tplMethod` on `m`: the glue function, the
trampoline when there is a callback, and the closing blank line. -/
def tplMethod (fuel : Nat) (h : Helpers) (g : Generator) (m : method) :
    Except Fault (String × Generator) := do
  let (glue, g1) ← tplGlue fuel h g m
  let (block, g2) ← tplBlock fuel h g1 m
  pure (glue ++ block ++ "\n\n", g2)

/-- The registration line that `write` formats into `g.init`. -/
def registration (h : Helpers) (g : Generator) (m : method) : Except Fault String :=
  if m.scope = scope.classScope ∧ m.ctor = false then
    pure ("\tgorb.DefineModuleFunction(g_pkg, \"" ++ RubyName h g m ++ "\", C."
      ++ FuncName m ++ ", " ++ toString m.args.length ++ ")\n")
  else do
    let cv ← ClassVar m
    pure ("\tgorb.Define" ++ Scope m ++ "Method(" ++ cv ++ ", \""
      ++ ExportRubyName h g m ++ "\", C." ++ FuncName m ++ ", "
      ++ toString m.args.length ++ ")\n")

/-- The Go method `write`: the preamble call, the registration line appended
to `g.init`, and the rendered template appended to `g.methods`.  A template
error is re-raised as a panic.  The generator passed to `write` is taken to be
the one the descriptor points to (`m.g`). -/
def write (fuel : Nat) (h : Helpers) (g : Generator) (m : method) :
    Except Fault Generator := do
  let g0 := { g with preamble := g.preamble ++ [(FuncName m, m.args.length)] }
  let line ← registration h g m
  let g1 := { g0 with init := g0.init ++ line }
  let (text, g2) ← tplMethod fuel h g1 m
  pure { g2 with methods := g2.methods ++ text }

/-! ## Sample inputs -/

/-- Helper functions that leave names as they are and know no exported or
external type. -/
def plainHelpers : Helpers :=
  { isExported := fun _ => false
    isExternal := fun _ => false
    packageName := fun s => s
    insertPkg := fun v _ => v
    indirection := fun _ => 0
    capitalize := fun s => s
    underscore := fun s => s
    quote := fun s => "\"" ++ s ++ "\"" }

/-- A generator that resolves every type to itself, converts every type with
the pair `GoInt` / `RbInt`-style routines named after `int`, and has empty
buffers. -/
def plainGenerator : Generator :=
  { isValueType := fun _ => false
    resolvedType := fun s => s
    findClass := fun _ => none
    returnTypes := fun _ => ["Int", "GoInt"]
    revTypeAliasMap := fun _ => ""
    importToModule := fun s => s
    pkg := { name := "pkg", imports := fun s => s, usedImports := fun _ => false }
    init := ""
    methods := ""
    preamble := [] }

/-- A descriptor with no owner, no parameters, no return types and no
callback. -/
def plainMethod : method :=
  { cls := none
    indirection := 0
    returnClass := ""
    ctor := false
    name := "f"
    exportName := ""
    scope := scope.classScope
    args := []
    argTypes := []
    returnTypes := []
    blockArgs := []
    blockArgTypes := []
    blockReturnTypes := [] }

/-- A fallible module function `open(path string) (*File, error)`. -/
def openMethod : method :=
  { plainMethod with
    name := "open"
    args := ["path"]
    argTypes := ["string"]
    returnTypes := ["*File", "error"] }

/-- The class `File` with class variable `g_cFile`. -/
def fileClass : Class :=
  { Name := "File", VarName := "g_cFile" }

/-- A constructor-flagged type-level member `new` of `File` that takes one
parameter. -/
def ctorMethod : method :=
  { plainMethod with
    cls := some fileClass
    ctor := true
    name := "new"
    args := ["path"]
    argTypes := ["string"] }

/-- A member named `string` that returns `bool`. -/
def stringMethod : method :=
  { plainMethod with
    name := "string"
    returnTypes := ["bool"] }

/-- A member named `string` that is exported under the override `text`. -/
def renamedStringMethod : method :=
  { plainMethod with
    name := "string"
    exportName := "text" }

/-- A member `empty` that returns `bool`. -/
def emptyMethod : method :=
  { plainMethod with
    name := "empty"
    returnTypes := ["bool"] }

/-- A member `empty` that returns `bool` and is exported under the override
`is_empty`. -/
def renamedEmptyMethod : method :=
  { plainMethod with
    name := "empty"
    exportName := "is_empty"
    returnTypes := ["bool"] }

/-- An instance member `name` of a class called `owner`. -/
def memberOf (owner : String) (name : String) : method :=
  { plainMethod with
    cls := some { Name := owner, VarName := "g_c" ++ owner }
    scope := scope.instanceScope
    name := name }

/-- The name of the owner, the empty string standing for an absent owner:
what `FuncName` appends between `method_` and the last `_`. -/
def ownerName (m : method) : String :=
  match m.cls with
  | some c => c.Name
  | none => ""

/-- A generator like `plainGenerator` in which `File` is an exported class
registered with class variable `g_cFile`. -/
def fileGenerator : Generator :=
  { plainGenerator with
    findClass := fun r => if r = "File" then some fileClass else none }

/-- Helper functions like `plainHelpers` that take `File` for exported. -/
def fileHelpers : Helpers :=
  { plainHelpers with
    isExported := fun r => decide (r = "File") }

/-- A member `dup` of `File` that returns a `File` and hands a `File` to its
callback. -/
def dupMethod : method :=
  { plainMethod with
    cls := some fileClass
    scope := scope.instanceScope
    name := "dup"
    returnClass := "File"
    returnTypes := ["File"]
    blockArgs := ["f"]
    blockArgTypes := ["File"] }

/-- A module function `each` whose callback takes `line string` and returns
`(int, error)`. -/
def eachMethod : method :=
  { plainMethod with
    name := "each"
    blockArgs := ["line"]
    blockArgTypes := ["string"]
    blockReturnTypes := ["int", "error"] }

/-! ## Conditions under which the glue function renders -/

/-- The descriptor and the resolver let the glue function of `m` be rendered:
every parameter has a type, an instance member has an owner, the indirection
is not negative, every parameter type has a conversion pair and an alias chain
that ends within the fuel, and the return type has a conversion routine. -/
structure GlueReady (fuel : Nat) (h : Helpers) (g : Generator) (m : method) : Prop where
  aligned : m.args.length ≤ m.argTypes.length
  owner : m.scope = scope.instanceScope → ∃ c, m.cls = some c
  depth : 0 ≤ m.indirection
  pairs : ∀ t ∈ m.argTypes, 2 ≤ (g.returnTypes t).length
  chase : ∀ t ∈ m.argTypes, h.isExported t = true →
    ∃ v, aliasChase g.revTypeAliasMap fuel t = some v
  retPair : m.returnTypes ≠ [] → 1 ≤ (g.returnTypes (ResolvedReturnType g m)).length

/-- The generator `g1` is `g` up to the `usedImports` table. -/
def Frame (g g1 : Generator) : Prop :=
  ∃ used, g1 = { g with pkg := { g.pkg with usedImports := used } }

/-- The descriptor is well formed: parameters and callback parameters have
one type each, the indirection is not negative, there is an owner unless the
member is a type-level non-constructor, and the resolver answers every type
with a conversion pair of two entries. -/
structure WellFormed (g : Generator) (m : method) : Prop where
  argsAligned : m.args.length = m.argTypes.length
  blockAligned : m.blockArgs.length = m.blockArgTypes.length
  depth : 0 ≤ m.indirection
  owner : ¬ (m.scope = scope.classScope ∧ m.ctor = false) → ∃ c, m.cls = some c
  pairs : ∀ t, (g.returnTypes t).length = 2

/-- The descriptor can be rendered: every parameter and every callback
parameter has a type (surplus types are allowed), the indirection is not
negative, there is an owner unless the member is a type-level
non-constructor, and the resolver answers every type with a conversion pair
of two entries. -/
structure Renderable (g : Generator) (m : method) : Prop where
  argsTyped : m.args.length ≤ m.argTypes.length
  blockTyped : m.blockArgs.length ≤ m.blockArgTypes.length
  depth : 0 ≤ m.indirection
  owner : ¬ (m.scope = scope.classScope ∧ m.ctor = false) → ∃ c, m.cls = some c
  pairs : ∀ t, (g.returnTypes t).length = 2

/-- The alias chains that rendering `m` follows end within the fuel: those of
the exported parameter types and of an exported first callback return type. -/
def ChainsEnd (fuel : Nat) (h : Helpers) (g : Generator) (m : method) : Prop :=
  ∀ t, (t ∈ m.argTypes ∨ m.blockReturnTypes.head? = some t) → h.isExported t = true →
    ∃ v, aliasChase g.revTypeAliasMap fuel t = some v

/-- Lines 289 and 290 of the template: the export comment and the signature of
the glue function, up to its opening brace. -/
def glueHead (m : method) : String :=
  "\n//export " ++ FuncName m ++ "\nfunc " ++ FuncName m ++ "("
    ++ RubyArgs m ++ " uintptr) uintptr \x7b"

/-- Lines 292 to 294 of the template: the enumerator check that a glue
function with a callback starts with. -/
def enumCheck (h : Helpers) (g : Generator) (m : method) : String :=
  "\n\tif e := gorb.EnumFor(" ++ RubyEnumArgs h g m
    ++ "); e != C.Qnil \x7b\n\t\treturn e\n\t\x7d"

/-- Line 298 of the template, rendered for instance scope only: the line that
resolves the receiver. -/
def receiverLine (g : Generator) (m : method) : Except Fault String :=
  if Scope m ≠ "Class" then do
    let c ← ClassName m
    pure ("\n\t" ++ FnReceiver g m ++ " := g_val2ptr_" ++ c ++ "(self)")
  else .ok ""

/-- A member `f` whose callback takes no parameter and returns `int`. -/
def silentCallbackMethod : method :=
  { plainMethod with blockReturnTypes := ["int"] }

/-- Helper functions like `plainHelpers` that take `File` and `Handle` for
exported and qualify a type name with the package name. -/
def aliasHelpers : Helpers :=
  { plainHelpers with
    isExported := fun r => decide (r = "File" ∨ r = "Handle" ∨ r = "A" ∨ r = "B")
    insertPkg := fun v p => p ++ "." ++ v }

/-- A generator that converts every type with the struct routines, in which
`Handle` is declared from `File`, and in which `A` and `B` are declared from
each other. -/
def aliasGenerator : Generator :=
  { plainGenerator with
    returnTypes := fun _ => ["StructValue", "GoStruct"]
    revTypeAliasMap := fun t =>
      if t = "Handle" then "File" else if t = "A" then "B" else if t = "B" then "A" else "" }

/-- The alias loop of `typeToGo` stops at `v`: its condition `v != ""` fails or
its `break` is taken. -/
def stops (rev : String → String) (v : String) : Prop :=
  v = "" ∨ rev v = ""

/-- Helper functions like `plainHelpers` that take `os.File` for an external
type of package `os`. -/
def externalHelpers : Helpers :=
  { plainHelpers with
    isExternal := fun r => decide (r = "os.File")
    packageName := fun _ => "os" }

/-- A module function `stdin` that returns the external type `os.File`. -/
def stdinMethod : method :=
  { plainMethod with
    name := "stdin"
    returnTypes := ["os.File"] }

/-- The generator `g` with its `init` buffer and its preamble record replaced. -/
def withBuffers (g : Generator) (i : String) (p : List (String × Nat)) : Generator :=
  { g with init := i, preamble := p }

/-- What a rendering step returns when it runs on `withBuffers g i p` instead
of `g`: the same text, with the same buffers put into the generator. -/
def onBuffers (i : String) (p : List (String × Nat))
    (x : Except Fault (String × Generator)) : Except Fault (String × Generator) :=
  match x with
  | .ok (s, g1) => .ok (s, withBuffers g1 i p)
  | .error e => .error e

/-- A member `f` with one parameter and two parameter types. -/
def extraTypeMethod : method :=
  { plainMethod with
    args := ["a"]
    argTypes := ["int", "int"] }

/-- A member `f` whose callback has one parameter and two parameter types. -/
def extraBlockTypeMethod : method :=
  { plainMethod with
    blockArgs := ["x"]
    blockArgTypes := ["int", "int"] }

/-- A member `f` with two parameters and one parameter type. -/
def missingTypeMethod : method :=
  { plainMethod with
    args := ["a", "b"]
    argTypes := ["int"] }

/-- Helper functions like `plainHelpers` whose `capitalize` puts the first
letter in upper case. -/
def goHelpers : Helpers :=
  { plainHelpers with
    capitalize := fun s =>
      match s.data with
      | c :: cs => String.mk (c.toUpper :: cs)
      | [] => "" }

/-- A module function `lines` whose callback takes `line string` and returns
nothing. -/
def linesMethod : method :=
  { plainMethod with
    name := "lines"
    blockArgs := ["line"]
    blockArgTypes := ["string"] }

/-- A member `dup` of `File` that returns a `File` and names no return
class. -/
def inferredMethod : method :=
  { plainMethod with
    cls := some fileClass
    scope := scope.instanceScope
    name := "dup"
    returnTypes := ["File"] }

/-- A member `lines` of `File` with a callback, exported under the override
`each_line`. -/
def eachLineMethod : method :=
  { plainMethod with
    cls := some fileClass
    scope := scope.instanceScope
    name := "lines"
    exportName := "each_line"
    blockArgs := ["line"]
    blockArgTypes := ["string"] }

/-! ## Evaluation lemmas -/

theorem index_of_lt (xs : List String) (n : Nat) (hn : n < xs.length) :
    index xs n = .ok (xs.get ⟨n, hn⟩) := by
  unfold index
  rw [List.getElem?_eq_getElem hn]
  rfl

theorem lastEntry_of_ne_nil (xs : List String) (hx : xs ≠ []) :
    lastEntry xs = .ok (xs.getLast hx) := by
  unfold lastEntry
  rw [List.getLast?_eq_getLast xs hx]

theorem goArgsLoop_ok (g : Generator) (m : method) :
    ∀ (as : List String) (i : Nat), i + as.length ≤ m.argTypes.length →
      ∃ l, goArgsLoop g m i as = .ok l := by
  intro as
  induction as with
  | nil => intro i _; exact ⟨[], rfl⟩
  | cons a as ih =>
    intro i hi
    simp only [List.length_cons] at hi
    obtain ⟨l, hl⟩ := ih (i + 1) (by omega)
    have hlt : i < m.argTypes.length := by omega
    simp only [goArgsLoop, index_of_lt _ _ hlt, hl, bind, Except.bind, pure, Except.pure]
    exact ⟨_, rfl⟩

theorem ampersands_ok (n : Int) (hn : 0 ≤ n) :
    ampersands n = .ok (Join (List.replicate n.toNat "") "&") := by
  unfold ampersands
  rw [if_neg (by omega)]

theorem castName_ok (fuel : Nat) (h : Helpers) (g : Generator) (typ : String)
    (hc : h.isExported typ = true → ∃ v, aliasChase g.revTypeAliasMap fuel typ = some v) :
    ∃ s, castName fuel h g typ = .ok s := by
  unfold castName
  by_cases he : h.isExported typ = true
  · obtain ⟨v, hv⟩ := hc he
    rw [if_pos he, hv]
    exact ⟨_, rfl⟩
  · rw [if_neg he]
    exact ⟨_, rfl⟩

theorem castExpr_ok (fuel : Nat) (h : Helpers) (g : Generator) (typ val : String)
    (hp : 2 ≤ (g.returnTypes typ).length)
    (hc : h.isExported typ = true → ∃ v, aliasChase g.revTypeAliasMap fuel typ = some v) :
    ∃ s, castExpr fuel h g typ val = .ok s := by
  have h1 : 1 < (g.returnTypes typ).length := by omega
  obtain ⟨v, hv⟩ := castName_ok fuel h g typ hc
  unfold castExpr
  simp only [index_of_lt _ _ h1, hv, bind, Except.bind, pure, Except.pure]
  by_cases hs : (g.returnTypes typ).get ⟨1, h1⟩ = "GoStruct"
  · rw [if_pos hs]
    exact ⟨_, rfl⟩
  · rw [if_neg hs]
    exact ⟨_, rfl⟩

theorem typeToGo_ok (fuel : Nat) (h : Helpers) (g : Generator) (m : method)
    (typ val : String) (hd : 0 ≤ m.indirection)
    (hp : 2 ≤ (g.returnTypes typ).length)
    (hc : h.isExported typ = true → ∃ v, aliasChase g.revTypeAliasMap fuel typ = some v) :
    ∃ s, typeToGo fuel h g m typ val = .ok s := by
  obtain ⟨s, hs⟩ := castExpr_ok fuel h g typ val hp hc
  unfold typeToGo
  simp only [hs, ampersands_ok _ hd, bind, Except.bind, pure, Except.pure]
  exact ⟨_, rfl⟩

theorem ArgToGo_ok (fuel : Nat) (h : Helpers) (g : Generator) (m : method)
    (hw : GlueReady fuel h g m) (n : Nat) (hn : n < m.args.length) :
    ∃ s, ArgToGo fuel h g m n = .ok s := by
  have hlt : n < m.argTypes.length := Nat.lt_of_lt_of_le hn hw.aligned
  have hmem : m.argTypes.get ⟨n, hlt⟩ ∈ m.argTypes := List.get_mem _ _ _
  obtain ⟨s, hs⟩ := typeToGo_ok fuel h g m (m.argTypes.get ⟨n, hlt⟩) (m.args.get ⟨n, hn⟩)
    hw.depth (hw.pairs _ hmem) (hw.chase _ hmem)
  unfold ArgToGo
  simp only [index_of_lt _ _ hlt, index_of_lt _ _ hn, hs, bind, Except.bind]
  exact ⟨_, rfl⟩

theorem rangeArgs_ok (fuel : Nat) (h : Helpers) (g : Generator) (m : method)
    (hw : GlueReady fuel h g m) :
    ∀ (vs : List String) (i : Nat), i + vs.length ≤ m.args.length →
      ∃ s, rangeArgs fuel h g m i vs = .ok s := by
  intro vs
  induction vs with
  | nil => intro i _; exact ⟨"", rfl⟩
  | cons v vs ih =>
    intro i hi
    simp only [List.length_cons] at hi
    obtain ⟨r, hr⟩ := ih (i + 1) (by omega)
    obtain ⟨s, hs⟩ := ArgToGo_ok fuel h g m hw i (by omega)
    simp only [rangeArgs, hs, hr, bind, Except.bind, pure, Except.pure]
    exact ⟨_, rfl⟩

theorem Scope_ne_Class (m : method) :
    Scope m ≠ "Class" ↔ m.scope = scope.instanceScope := by
  unfold Scope
  cases hs : m.scope <;> simp

theorem gluePrologue_ok (fuel : Nat) (h : Helpers) (g : Generator) (m : method)
    (hw : GlueReady fuel h g m) : ∃ s, gluePrologue fuel h g m = .ok s := by
  obtain ⟨conv, hconv⟩ := rangeArgs_ok fuel h g m hw m.args 0 (by omega)
  unfold gluePrologue
  by_cases hs : Scope m ≠ "Class"
  · obtain ⟨c, hc⟩ := hw.owner ((Scope_ne_Class m).1 hs)
    simp only [if_pos hs, ClassName, hc, ArgsList, hconv, bind, Except.bind, pure, Except.pure]
    exact ⟨_, rfl⟩
  · simp only [if_neg hs, ArgsList, hconv, bind, Except.bind, pure, Except.pure]
    exact ⟨_, rfl⟩

theorem nativeCall_ok (fuel : Nat) (h : Helpers) (g : Generator) (m : method)
    (hw : GlueReady fuel h g m) :
    ∃ ga, GoArgs g m = .ok ga ∧
      nativeCall h g m = .ok (FnReceiver g m ++ "." ++ Name h m ++ "(" ++ ga ++ ")") := by
  obtain ⟨l, hl⟩ := goArgsLoop_ok g m m.args 0 (by have := hw.aligned; omega)
  unfold nativeCall GoArgs
  simp only [hl, bind, Except.bind, pure, Except.pure]
  exact ⟨_, rfl, rfl⟩

theorem ReturnTypeToRuby_ok (fuel : Nat) (h : Helpers) (g : Generator) (m : method)
    (hw : GlueReady fuel h g m) : ∃ r, ReturnTypeToRuby h g m = .ok r := by
  unfold ReturnTypeToRuby
  by_cases h0 : m.returnTypes.length = 0
  · rw [if_pos h0]; exact ⟨_, rfl⟩
  · rw [if_neg h0]
    have hne : m.returnTypes ≠ [] := fun hn => h0 (by rw [hn]; rfl)
    have h1 : 0 < (g.returnTypes (ResolvedReturnType g m)).length := hw.retPair hne
    dsimp only
    by_cases ho : ResolvedReturnClass g m ≠ "" ∧ h.isExported (ResolvedReturnClass g m) = true
    · rw [if_pos ho]; exact ⟨_, rfl⟩
    · rw [if_neg ho]
      by_cases hx : h.isExternal (ResolvedReturnType g m) = true
      · rw [if_pos hx]; exact ⟨_, rfl⟩
      · rw [if_neg hx]
        simp only [index_of_lt _ _ h1, bind, Except.bind, pure, Except.pure]
        exact ⟨_, rfl⟩

theorem lastEntry_of_getLast? (xs : List String) (x : String)
    (hx : xs.getLast? = some x) : lastEntry xs = .ok x := by
  unfold lastEntry
  rw [hx]

theorem ReceiverVars_error (m : method) (he : m.returnTypes.getLast? = some "error") :
    ReceiverVars m = .ok "ret, err" := by
  unfold ReceiverVars
  simp only [lastEntry_of_getLast? _ _ he, bind, Except.bind]
  rfl

theorem ReceiverVars_plain (m : method) (hne : m.returnTypes ≠ [])
    (he : m.returnTypes.getLast? ≠ some "error") : ReceiverVars m = .ok "ret" := by
  unfold ReceiverVars
  have hl : m.returnTypes.getLast hne ≠ "error" := by
    intro hc
    apply he
    rw [List.getLast?_eq_getLast _ hne, hc]
  simp only [lastEntry_of_ne_nil _ hne, bind, Except.bind]
  rw [if_neg hl]
  rfl

theorem RaiseError_error (m : method) (he : m.returnTypes.getLast? = some "error") :
    RaiseError m = .ok "\n  gorb.RaiseError(err)" := by
  have hpos : m.returnTypes.length > 0 := by
    cases hm : m.returnTypes with
    | nil => rw [hm] at he; simp at he
    | cons a as => simp
  unfold RaiseError
  rw [if_pos hpos]
  simp only [ReceiverVars_error m he, bind, Except.bind]
  rfl

theorem RaiseError_plain (m : method) (he : m.returnTypes.getLast? ≠ some "error") :
    RaiseError m = .ok "" := by
  unfold RaiseError
  by_cases hpos : m.returnTypes.length > 0
  · have hne : m.returnTypes ≠ [] := List.ne_nil_of_length_pos hpos
    rw [if_pos hpos]
    simp only [ReceiverVars_plain m hne he, bind, Except.bind]
    rfl
  · rw [if_neg hpos]
    rfl

theorem glueReady_plain (fuel : Nat) (m : method)
    (ha : m.args.length ≤ m.argTypes.length)
    (ho : m.scope = scope.instanceScope → ∃ c, m.cls = some c)
    (hd : 0 ≤ m.indirection) : GlueReady fuel plainHelpers plainGenerator m :=
  { aligned := ha
    owner := ho
    depth := hd
    pairs := fun _ _ => Nat.le_refl 2
    chase := fun _ _ he => Bool.noConfusion he
    retPair := fun _ => Nat.le_succ 1 }

/-! ## What rendering leaves unchanged -/

theorem Frame.refl (g : Generator) : Frame g g :=
  ⟨g.pkg.usedImports, rfl⟩

theorem Frame.trans {a b c : Generator} (hab : Frame a b) (hbc : Frame b c) : Frame a c := by
  obtain ⟨u, rfl⟩ := hab
  obtain ⟨v, rfl⟩ := hbc
  exact ⟨v, rfl⟩

theorem Frame.init_eq {g g1 : Generator} (hf : Frame g g1) : g1.init = g.init := by
  obtain ⟨u, rfl⟩ := hf
  rfl

theorem Frame.methods_eq {g g1 : Generator} (hf : Frame g g1) : g1.methods = g.methods := by
  obtain ⟨u, rfl⟩ := hf
  rfl

theorem Frame.preamble_eq {g g1 : Generator} (hf : Frame g g1) :
    g1.preamble = g.preamble := by
  obtain ⟨u, rfl⟩ := hf
  rfl

theorem markUsed_frame (g : Generator) (k : String) : Frame g (markUsed g k) :=
  ⟨_, rfl⟩

theorem BlockArgToRb_frame (h : Helpers) (g : Generator) (m : method) (n : Nat)
    (s : String) (g1 : Generator) (hres : BlockArgToRb h g m n = .ok (s, g1)) :
    Frame g g1 := by
  unfold BlockArgToRb at hres
  cases h1 : index m.blockArgs n with
  | error e => simp [h1, bind, Except.bind] at hres
  | ok ret =>
    cases h2 : index m.blockArgTypes n with
    | error e => simp [h1, h2, bind, Except.bind] at hres
    | ok typ =>
      simp only [h1, h2, bind, Except.bind, pure, Except.pure] at hres
      split at hres
      · injection hres with hres
        injection hres with _ hg
        rw [← hg]; exact Frame.refl g
      · split at hres
        · injection hres with hres
          injection hres with _ hg
          rw [← hg]; exact markUsed_frame g _
        · cases h3 : index (g.returnTypes typ) 0 with
          | error e => simp [h3] at hres
          | ok t0 =>
            simp only [h3] at hres
            injection hres with hres
            injection hres with _ hg
            rw [← hg]; exact Frame.refl g

theorem rangeBlockArgs_frame (h : Helpers) (m : method) :
    ∀ (vs : List String) (g : Generator) (i : Nat) (s : String) (g1 : Generator),
      rangeBlockArgs h m g i vs = .ok (s, g1) → Frame g g1 := by
  intro vs
  induction vs with
  | nil =>
    intro g i s g1 hres
    simp only [rangeBlockArgs] at hres
    injection hres with hres
    injection hres with _ hg
    rw [← hg]; exact Frame.refl g
  | cons v vs ih =>
    intro g i s g1 hres
    simp only [rangeBlockArgs, bind, Except.bind, pure, Except.pure] at hres
    cases h1 : BlockArgToRb h g m i with
    | error e => simp [h1] at hres
    | ok r1 =>
      obtain ⟨s1, ga⟩ := r1
      simp only [h1] at hres
      cases h2 : rangeBlockArgs h m ga (i + 1) vs with
      | error e => simp [h2] at hres
      | ok r2 =>
        obtain ⟨s2, gb⟩ := r2
        simp only [h2] at hres
        injection hres with hres
        injection hres with _ hg
        rw [← hg]
        exact (BlockArgToRb_frame h g m i s1 ga h1).trans (ih ga (i + 1) s2 gb h2)

theorem ReturnTypeToRuby_frame (h : Helpers) (g : Generator) (m : method)
    (s : String) (g1 : Generator) (hres : ReturnTypeToRuby h g m = .ok (s, g1)) :
    Frame g g1 := by
  unfold ReturnTypeToRuby at hres
  split at hres
  · injection hres with hres
    injection hres with _ hg
    rw [← hg]; exact Frame.refl g
  · dsimp only at hres
    split at hres
    · injection hres with hres
      injection hres with _ hg
      rw [← hg]; exact Frame.refl g
    · split at hres
      · injection hres with hres
        injection hres with _ hg
        rw [← hg]; exact markUsed_frame g _
      · cases h3 : index (g.returnTypes (ResolvedReturnType g m)) 0 with
        | error e => simp [h3, bind, Except.bind] at hres
        | ok t0 =>
          simp only [h3, bind, Except.bind, pure, Except.pure] at hres
          injection hres with hres
          injection hres with _ hg
          rw [← hg]; exact Frame.refl g

theorem bind_ok {α β : Type} (x : Except Fault α) (f : α → Except Fault β) (b : β)
    (hb : (x >>= f) = .ok b) : ∃ a, x = .ok a ∧ f a = .ok b := by
  cases x with
  | error e => exact Except.noConfusion hb
  | ok a => exact ⟨a, rfl, hb⟩

theorem tplGlue_frame (fuel : Nat) (h : Helpers) (g : Generator) (m : method)
    (s : String) (g1 : Generator) (hres : tplGlue fuel h g m = .ok (s, g1)) :
    Frame g g1 := by
  unfold tplGlue at hres
  obtain ⟨pro, _, hres⟩ := bind_ok _ _ _ hres
  split at hres
  · obtain ⟨rv, _, hres⟩ := bind_ok _ _ _ hres
    obtain ⟨call, _, hres⟩ := bind_ok _ _ _ hres
    obtain ⟨re, _, hres⟩ := bind_ok _ _ _ hres
    obtain ⟨⟨rt, g2⟩, hrt, hres⟩ := bind_ok _ _ _ hres
    injection hres with hres
    injection hres with _ hg
    rw [← hg]
    exact ReturnTypeToRuby_frame h g m rt g2 hrt
  · obtain ⟨call, _, hres⟩ := bind_ok _ _ _ hres
    obtain ⟨re, _, hres⟩ := bind_ok _ _ _ hres
    injection hres with hres
    injection hres with _ hg
    rw [← hg]
    exact Frame.refl g

theorem tplBlock_frame (fuel : Nat) (h : Helpers) (g : Generator) (m : method)
    (s : String) (g1 : Generator) (hres : tplBlock fuel h g m = .ok (s, g1)) :
    Frame g g1 := by
  unfold tplBlock at hres
  split at hres
  · obtain ⟨sig, _, hres⟩ := bind_ok _ _ _ hres
    obtain ⟨⟨conv, g2⟩, hconv, hres⟩ := bind_ok _ _ _ hres
    have hf := rangeBlockArgs_frame h m _ g 0 conv g2 hconv
    dsimp only at hres
    split at hres
    · obtain ⟨ra, _, hres⟩ := bind_ok _ _ _ hres
      obtain ⟨rt, _, hres⟩ := bind_ok _ _ _ hres
      injection hres with hres
      injection hres with _ hg
      rw [← hg]; exact hf
    · obtain ⟨ra, _, hres⟩ := bind_ok _ _ _ hres
      injection hres with hres
      injection hres with _ hg
      rw [← hg]; exact hf
  · injection hres with hres
    injection hres with _ hg
    rw [← hg]; exact Frame.refl g

theorem tplMethod_frame (fuel : Nat) (h : Helpers) (g : Generator) (m : method)
    (s : String) (g1 : Generator) (hres : tplMethod fuel h g m = .ok (s, g1)) :
    Frame g g1 := by
  unfold tplMethod at hres
  obtain ⟨⟨glue, ga⟩, hglue, hres⟩ := bind_ok _ _ _ hres
  obtain ⟨⟨block, gb⟩, hblock, hres⟩ := bind_ok _ _ _ hres
  injection hres with hres
  injection hres with _ hg
  rw [← hg]
  exact (tplGlue_frame fuel h g m glue ga hglue).trans (tplBlock_frame fuel h ga m block gb hblock)

/-- A successful `write` has appended the registration line to `g.init` and
the rendered template to `g.methods`, and has recorded one preamble call. -/
theorem write_ok_inv (fuel : Nat) (h : Helpers) (g : Generator) (m : method)
    (g1 : Generator) (hres : write fuel h g m = .ok g1) :
    ∃ line text, registration h g m = .ok line ∧ g1.init = g.init ++ line ∧
      g1.methods = g.methods ++ text ∧
      g1.preamble = g.preamble ++ [(FuncName m, m.args.length)] := by
  unfold write at hres
  obtain ⟨line, hline, hres⟩ := bind_ok _ _ _ hres
  obtain ⟨⟨text, g2⟩, htext, hres⟩ := bind_ok _ _ _ hres
  have hf := tplMethod_frame fuel h _ m text g2 htext
  injection hres with hg
  refine ⟨line, text, hline, ?_, ?_, ?_⟩
  · rw [← hg]; exact hf.init_eq
  · rw [← hg]; show g2.methods ++ text = _; rw [hf.methods_eq]
  · rw [← hg]; exact hf.preamble_eq

/-! ## C1: placement of the failure-propagation step -/

/-- C1. When the glue function of `m` renders (`GlueReady`), its text is the
prologue, the receiver binding, the native call, the text of `RaiseError` and
the return statement, in this order.  If `returnTypes` is non-empty with last
entry `"error"`, `RaiseError` is `"\n  gorb.RaiseError(err)"` and the step sits
once, directly after the native call and before `return <ReturnTypeToRuby>`.
In every other case (a non-empty list with another last entry, or no return
type) `RaiseError` is the empty string and the native call is followed
directly by the return statement. -/
theorem raiseError_step_placement (fuel : Nat) (h : Helpers) (g : Generator) (m : method)
    (hw : GlueReady fuel h g m) :
    ∃ pro call, gluePrologue fuel h g m = .ok pro ∧ nativeCall h g m = .ok call ∧
      (m.returnTypes.getLast? = some "error" →
        RaiseError m = .ok "\n  gorb.RaiseError(err)" ∧
        ∃ conv g1, ReturnTypeToRuby h g m = .ok (conv, g1) ∧
          tplGlue fuel h g m = .ok (pro ++ "\n\t" ++ "ret, err" ++ " := " ++ call
            ++ "\n  gorb.RaiseError(err)" ++ "\n\treturn " ++ conv ++ "\n\x7d", g1)) ∧
      (m.returnTypes ≠ [] → m.returnTypes.getLast? ≠ some "error" →
        RaiseError m = .ok "" ∧
        ∃ conv g1, ReturnTypeToRuby h g m = .ok (conv, g1) ∧
          tplGlue fuel h g m = .ok (pro ++ "\n\t" ++ "ret" ++ " := " ++ call
            ++ "\n\treturn " ++ conv ++ "\n\x7d", g1)) ∧
      (m.returnTypes = [] →
        RaiseError m = .ok "" ∧
        tplGlue fuel h g m = .ok (pro ++ "\n\t" ++ call
          ++ "\n\treturn C.Qnil" ++ "\n\x7d", g)) := by
  obtain ⟨pro, hpro⟩ := gluePrologue_ok fuel h g m hw
  obtain ⟨ga, _, hcall⟩ := nativeCall_ok fuel h g m hw
  obtain ⟨⟨conv, g1⟩, hconv⟩ := ReturnTypeToRuby_ok fuel h g m hw
  refine ⟨pro, _, hpro, hcall, ?_, ?_, ?_⟩
  · intro he
    have hre := RaiseError_error m he
    have hrv := ReceiverVars_error m he
    have hpos : HasReturnType m = true := by
      unfold HasReturnType
      cases hm : m.returnTypes with
      | nil => rw [hm] at he; simp at he
      | cons a as => simp
    refine ⟨hre, conv, g1, hconv, ?_⟩
    unfold tplGlue
    simp only [hpro, hpos, hrv, hcall, hre, hconv, if_true, bind, Except.bind, pure,
      Except.pure, String.append_empty]
  · intro hne he
    have hre := RaiseError_plain m he
    have hrv := ReceiverVars_plain m hne he
    have hpos : HasReturnType m = true := by
      unfold HasReturnType
      exact decide_eq_true (List.length_pos.2 hne)
    refine ⟨hre, conv, g1, hconv, ?_⟩
    unfold tplGlue
    simp only [hpro, hpos, hrv, hcall, hre, hconv, if_true, bind, Except.bind, pure,
      Except.pure, String.append_empty]
  · intro hnil
    have he : m.returnTypes.getLast? ≠ some "error" := by rw [hnil]; simp
    have hre := RaiseError_plain m he
    have hpos : HasReturnType m = false := by
      unfold HasReturnType
      rw [hnil]; rfl
    refine ⟨hre, ?_⟩
    unfold tplGlue
    simp only [hpro, hpos, hcall, hre, Bool.false_eq_true, if_false, bind, Except.bind, pure,
      Except.pure, String.append_empty]

/-- The module function `open` meets `GlueReady`, and its glue text has the
three cases of C1. -/
theorem raiseError_step_placement_witness :
    GlueReady 1 plainHelpers plainGenerator openMethod ∧
    ∃ pro call, gluePrologue 1 plainHelpers plainGenerator openMethod = .ok pro ∧
      nativeCall plainHelpers plainGenerator openMethod = .ok call ∧
      (openMethod.returnTypes.getLast? = some "error" →
        RaiseError openMethod = .ok "\n  gorb.RaiseError(err)" ∧
        ∃ conv g1, ReturnTypeToRuby plainHelpers plainGenerator openMethod = .ok (conv, g1) ∧
          tplGlue 1 plainHelpers plainGenerator openMethod
            = .ok (pro ++ "\n\t" ++ "ret, err" ++ " := " ++ call
              ++ "\n  gorb.RaiseError(err)" ++ "\n\treturn " ++ conv ++ "\n\x7d", g1)) ∧
      (openMethod.returnTypes ≠ [] → openMethod.returnTypes.getLast? ≠ some "error" →
        RaiseError openMethod = .ok "" ∧
        ∃ conv g1, ReturnTypeToRuby plainHelpers plainGenerator openMethod = .ok (conv, g1) ∧
          tplGlue 1 plainHelpers plainGenerator openMethod
            = .ok (pro ++ "\n\t" ++ "ret" ++ " := " ++ call
              ++ "\n\treturn " ++ conv ++ "\n\x7d", g1)) ∧
      (openMethod.returnTypes = [] →
        RaiseError openMethod = .ok "" ∧
        tplGlue 1 plainHelpers plainGenerator openMethod
          = .ok (pro ++ "\n\t" ++ call ++ "\n\treturn C.Qnil" ++ "\n\x7d", plainGenerator)) :=
  ⟨glueReady_plain 1 openMethod (by decide) (fun hs => absurd hs (by decide)) (by decide),
   raiseError_step_placement 1 plainHelpers plainGenerator openMethod
    (glueReady_plain 1 openMethod (by decide) (fun hs => absurd hs (by decide)) (by decide))⟩

/-- The two branches of `registration`. -/
theorem registration_branches (h : Helpers) (g : Generator) (m : method) :
    (m.scope = scope.classScope ∧ m.ctor = false →
      registration h g m = .ok ("\tgorb.DefineModuleFunction(g_pkg, \"" ++ RubyName h g m
        ++ "\", C." ++ FuncName m ++ ", " ++ toString m.args.length ++ ")\n")) ∧
    (¬ (m.scope = scope.classScope ∧ m.ctor = false) → ∀ c, m.cls = some c →
      registration h g m = .ok ("\tgorb.Define" ++ Scope m ++ "Method(" ++ c.VarName ++ ", \""
        ++ ExportRubyName h g m ++ "\", C." ++ FuncName m ++ ", "
        ++ toString m.args.length ++ ")\n")) := by
  refine ⟨?_, ?_⟩
  · intro hmod
    unfold registration
    rw [if_pos hmod]
    rfl
  · intro hmod c hc
    unfold registration
    rw [if_neg hmod]
    simp only [ClassVar, hc, bind, Except.bind, pure, Except.pure]

/-! ## C2: the arity of the registration line -/

/-- C2. The registration line that `write` appends to `g.init` ends in
`, <len(args)>)` in the module-function branch and in the method branch alike,
it is the same line whatever the callback fields `blockArgs`, `blockArgTypes`
and `blockReturnTypes` hold, and a successful `write` has appended exactly
this line to `g.init`. -/
theorem registration_arity (fuel : Nat) (h : Helpers) (g : Generator) (m : method) :
    (m.scope = scope.classScope ∧ m.ctor = false →
      registration h g m = .ok ("\tgorb.DefineModuleFunction(g_pkg, \"" ++ RubyName h g m
        ++ "\", C." ++ FuncName m ++ ", " ++ toString m.args.length ++ ")\n")) ∧
    (¬ (m.scope = scope.classScope ∧ m.ctor = false) → ∀ c, m.cls = some c →
      registration h g m = .ok ("\tgorb.Define" ++ Scope m ++ "Method(" ++ c.VarName ++ ", \""
        ++ ExportRubyName h g m ++ "\", C." ++ FuncName m ++ ", "
        ++ toString m.args.length ++ ")\n")) ∧
    (∀ line, registration h g m = .ok line →
      ∃ front, line = front ++ ", " ++ toString m.args.length ++ ")\n") ∧
    (∀ ba bt br, registration h g
        { m with blockArgs := ba, blockArgTypes := bt, blockReturnTypes := br }
      = registration h g m) ∧
    (∀ g1, write fuel h g m = .ok g1 →
      ∃ line, registration h g m = .ok line ∧ g1.init = g.init ++ line) := by
  refine ⟨(registration_branches h g m).1, (registration_branches h g m).2, ?_, ?_, ?_⟩
  · intro line hline
    unfold registration at hline
    split at hline
    · injection hline with hline
      exact ⟨_, hline.symm⟩
    · obtain ⟨cv, _, hline⟩ := bind_ok _ _ _ hline
      injection hline with hline
      exact ⟨_, hline.symm⟩
  · intro ba bt br
    rfl
  · intro g1 hres
    obtain ⟨line, _, hline, hinit, _, _⟩ := write_ok_inv fuel h g m g1 hres
    exact ⟨line, hline, hinit⟩

/-- The module function `open`, which has one parameter, is registered with
arity 1. -/
theorem registration_arity_witness :
    registration plainHelpers plainGenerator openMethod
      = .ok ("\tgorb.DefineModuleFunction(g_pkg, \"" ++ "open" ++ "\", C."
        ++ "g_cmethod__open" ++ ", " ++ "1" ++ ")\n") :=
  (registration_arity 1 plainHelpers plainGenerator openMethod).1 ⟨rfl, rfl⟩

/-! ## C3: which registration call is emitted -/

theorem moduleFunction_starts (s : String) :
    "\tgorb.DefineModuleFunction(".data <+: ("\tgorb.DefineModuleFunction(g_pkg, \"" ++ s).data := by
  rw [String.data_append]
  exact ⟨"g_pkg, \"".data ++ s.data, by rw [← List.append_assoc]; rfl⟩

theorem defineMethod_not_module (s : String) :
    ¬ ("\tgorb.DefineModuleFunction(".data <+: ("\tgorb.DefineMethod(" ++ s).data) := by
  rw [String.data_append]
  simp [List.cons_prefix_cons]

theorem defineClassMethod_not_module (s : String) :
    ¬ ("\tgorb.DefineModuleFunction(".data <+: ("\tgorb.DefineClassMethod(" ++ s).data) := by
  rw [String.data_append]
  simp [List.cons_prefix_cons]

/-- C3. For a descriptor with owner `c`, `write` registers with one line that
starts with `gorb.DefineModuleFunction(` if and only if the scope is
type-level and `ctor` is false; then it is the module-function call on `g_pkg`
under `RubyName`.  For instance scope it is `gorb.DefineMethod` and for a
type-level constructor `gorb.DefineClassMethod`, both on the class variable of
the owner under `ExportRubyName`. -/
theorem registration_shape (fuel : Nat) (h : Helpers) (g : Generator) (m : method)
    (c : Class) (hc : m.cls = some c) :
    ∃ line, registration h g m = .ok line ∧
      (("\tgorb.DefineModuleFunction(".data <+: line.data) ↔
        (m.scope = scope.classScope ∧ m.ctor = false)) ∧
      (m.scope = scope.classScope ∧ m.ctor = false →
        line = "\tgorb.DefineModuleFunction(g_pkg, \"" ++ RubyName h g m
          ++ "\", C." ++ FuncName m ++ ", " ++ toString m.args.length ++ ")\n") ∧
      (m.scope = scope.instanceScope →
        line = "\tgorb.DefineMethod(" ++ c.VarName ++ ", \"" ++ ExportRubyName h g m
          ++ "\", C." ++ FuncName m ++ ", " ++ toString m.args.length ++ ")\n") ∧
      (m.scope = scope.classScope ∧ m.ctor = true →
        line = "\tgorb.DefineClassMethod(" ++ c.VarName ++ ", \"" ++ ExportRubyName h g m
          ++ "\", C." ++ FuncName m ++ ", " ++ toString m.args.length ++ ")\n") ∧
      (∀ g1, write fuel h g m = .ok g1 → g1.init = g.init ++ line) := by
  have hwrite : ∀ line, registration h g m = .ok line →
      ∀ g1, write fuel h g m = .ok g1 → g1.init = g.init ++ line := by
    intro line hline g1 hres
    obtain ⟨line1, _, hline1, hinit, _, _⟩ := write_ok_inv fuel h g m g1 hres
    rw [hline] at hline1
    injection hline1 with hl
    rw [hinit, hl]
  by_cases hmod : m.scope = scope.classScope ∧ m.ctor = false
  · have hline := (registration_branches h g m).1 hmod
    refine ⟨_, hline, ?_, fun _ => rfl, ?_, ?_, hwrite _ hline⟩
    · simp only [String.append_assoc]
      exact ⟨fun _ => hmod, fun _ => moduleFunction_starts _⟩
    · intro hi
      rw [hmod.1] at hi
      exact absurd hi (by decide)
    · intro hct
      rw [hmod.2] at hct
      exact absurd hct.2 (by decide)
  · have hline := (registration_branches h g m).2 hmod c hc
    have hcases : m.scope = scope.instanceScope ∨ m.scope = scope.classScope := by
      cases m.scope
      · exact Or.inl rfl
      · exact Or.inr rfl
    rcases hcases with hs | hs
    · have hsc : Scope m = "" := by unfold Scope; rw [hs]; rfl
      have hlit : ("\tgorb.Define" ++ "" ++ "Method(" : String) = "\tgorb.DefineMethod(" := by
        decide
      have hnot : ¬ (m.scope = scope.classScope) := by rw [hs]; decide
      rw [hsc, hlit] at hline
      refine ⟨_, hline, ?_, ?_, fun _ => rfl, ?_, hwrite _ hline⟩
      · simp only [String.append_assoc]
        constructor
        · intro hp; exact absurd hp (defineMethod_not_module _)
        · intro hm; exact absurd hm.1 hnot
      · intro hm; exact absurd hm.1 hnot
      · intro hm; exact absurd hm.1 hnot
    · have hsc : Scope m = "Class" := by unfold Scope; rw [hs]; rfl
      have hlit : ("\tgorb.Define" ++ "Class" ++ "Method(" : String)
          = "\tgorb.DefineClassMethod(" := by decide
      have hnot : ¬ (m.scope = scope.instanceScope) := by rw [hs]; decide
      rw [hsc, hlit] at hline
      refine ⟨_, hline, ?_, ?_, ?_, fun _ => rfl, hwrite _ hline⟩
      · simp only [String.append_assoc]
        constructor
        · intro hp; exact absurd hp (defineClassMethod_not_module _)
        · intro hm; exact absurd hm hmod
      · intro hm; exact absurd hm hmod
      · intro hi; exact absurd hi hnot

/-- The constructor `new` of `File` is type-level and is registered with
`gorb.DefineClassMethod`, not as a module function. -/
theorem registration_shape_witness :
    ctorMethod.cls = some fileClass ∧
    ∃ line, registration plainHelpers plainGenerator ctorMethod = .ok line ∧
      (("\tgorb.DefineModuleFunction(".data <+: line.data) ↔
        (ctorMethod.scope = scope.classScope ∧ ctorMethod.ctor = false)) ∧
      (ctorMethod.scope = scope.classScope ∧ ctorMethod.ctor = false →
        line = "\tgorb.DefineModuleFunction(g_pkg, \""
          ++ RubyName plainHelpers plainGenerator ctorMethod
          ++ "\", C." ++ FuncName ctorMethod ++ ", "
          ++ toString ctorMethod.args.length ++ ")\n") ∧
      (ctorMethod.scope = scope.instanceScope →
        line = "\tgorb.DefineMethod(" ++ fileClass.VarName ++ ", \""
          ++ ExportRubyName plainHelpers plainGenerator ctorMethod
          ++ "\", C." ++ FuncName ctorMethod ++ ", "
          ++ toString ctorMethod.args.length ++ ")\n") ∧
      (ctorMethod.scope = scope.classScope ∧ ctorMethod.ctor = true →
        line = "\tgorb.DefineClassMethod(" ++ fileClass.VarName ++ ", \""
          ++ ExportRubyName plainHelpers plainGenerator ctorMethod
          ++ "\", C." ++ FuncName ctorMethod ++ ", "
          ++ toString ctorMethod.args.length ++ ")\n") ∧
      (∀ g1, write 1 plainHelpers plainGenerator ctorMethod = .ok g1 →
        g1.init = plainGenerator.init ++ line) :=
  ⟨rfl, registration_shape 1 plainHelpers plainGenerator ctorMethod fileClass rfl⟩

/-! ## C4: the name of a member called `string` -/

/-- C4, as stated, fails: the member `string` with the override `text` is
exported as `text`, not as `to_s`. -/
theorem exportRubyName_string_override :
    plainHelpers.underscore renamedStringMethod.name = "string" ∧
    ExportRubyName plainHelpers plainGenerator renamedStringMethod = "text" ∧
    ExportRubyName plainHelpers plainGenerator renamedStringMethod ≠ "to_s" := by
  decide

/-- C4, amended. When the native name underscores to `"string"`, `RubyName` is
`"to_s"` whatever the return type is; `ExportRubyName` is `"to_s"` when no
override is set, and is the override when one is set. -/
theorem exportRubyName_string (h : Helpers) (g : Generator) (m : method)
    (hs : h.underscore m.name = "string") :
    RubyName h g m = "to_s" ∧
    (m.exportName = "" → ExportRubyName h g m = "to_s") ∧
    (m.exportName ≠ "" → ExportRubyName h g m = m.exportName) := by
  have hr : RubyName h g m = "to_s" := by
    unfold RubyName
    simp only [hs, if_true]
  refine ⟨hr, ?_, ?_⟩
  · intro he
    unfold ExportRubyName
    rw [if_neg (fun hn => hn he), hr]
  · intro he
    unfold ExportRubyName
    rw [if_pos he]

/-- The member `string` returning `bool`, with no override, is exported as
`to_s`. -/
theorem exportRubyName_string_witness :
    plainHelpers.underscore stringMethod.name = "string" ∧
    RubyName plainHelpers plainGenerator stringMethod = "to_s" ∧
    (stringMethod.exportName = "" →
      ExportRubyName plainHelpers plainGenerator stringMethod = "to_s") ∧
    (stringMethod.exportName ≠ "" →
      ExportRubyName plainHelpers plainGenerator stringMethod = stringMethod.exportName) :=
  ⟨rfl, exportRubyName_string plainHelpers plainGenerator stringMethod rfl⟩

/-! ## C5: the predicate marker of a member returning `bool` -/

/-- C5, as stated, fails: the member `string` returning `bool` is named `to_s`,
which does not end in `?`, and the member `empty` returning `bool` with the
override `is_empty` is exported as `is_empty`. -/
theorem rubyName_bool_unmarked :
    ResolvedReturnType plainGenerator stringMethod = "bool" ∧
    RubyName plainHelpers plainGenerator stringMethod = "to_s" ∧
    (RubyName plainHelpers plainGenerator stringMethod).data.getLast? ≠ some '?' ∧
    ResolvedReturnType plainGenerator renamedEmptyMethod = "bool" ∧
    ExportRubyName plainHelpers plainGenerator renamedEmptyMethod = "is_empty" ∧
    (ExportRubyName plainHelpers plainGenerator renamedEmptyMethod).data.getLast? ≠ some '?' := by
  decide

/-- C5, amended. When the resolved first return type is `"bool"` and the native
name does not underscore to `"string"`, `RubyName` is the underscored name
followed by `?`, so it ends in `?`; `ExportRubyName` is that same name when no
override is set. -/
theorem rubyName_bool_marker (h : Helpers) (g : Generator) (m : method)
    (hb : ResolvedReturnType g m = "bool") (hn : h.underscore m.name ≠ "string") :
    RubyName h g m = h.underscore m.name ++ "?" ∧
    (RubyName h g m).data.getLast? = some '?' ∧
    (m.exportName = "" → ExportRubyName h g m = h.underscore m.name ++ "?") := by
  have hr : RubyName h g m = h.underscore m.name ++ "?" := by
    unfold RubyName
    simp only [hn, hb, if_true, if_false]
  refine ⟨hr, ?_, ?_⟩
  · rw [hr, String.data_append]
    exact List.getLast?_concat _
  · intro he
    unfold ExportRubyName
    rw [if_neg (fun hx => hx he), hr]

/-- The member `empty` returning `bool` is named `empty?`. -/
theorem rubyName_bool_marker_witness :
    ResolvedReturnType plainGenerator emptyMethod = "bool" ∧
    plainHelpers.underscore emptyMethod.name ≠ "string" ∧
    RubyName plainHelpers plainGenerator emptyMethod
      = plainHelpers.underscore emptyMethod.name ++ "?" ∧
    (RubyName plainHelpers plainGenerator emptyMethod).data.getLast? = some '?' ∧
    (emptyMethod.exportName = "" →
      ExportRubyName plainHelpers plainGenerator emptyMethod
        = plainHelpers.underscore emptyMethod.name ++ "?") :=
  ⟨rfl, by decide, rubyName_bool_marker plainHelpers plainGenerator emptyMethod rfl (by decide)⟩

/-! ## C6: how far the glue function name determines the member -/

theorem FuncName_eq (m : method) :
    FuncName m = "g_" ++ (if m.scope = scope.classScope then "c" else "i") ++ "method_"
      ++ ownerName m ++ "_" ++ m.name := by
  unfold FuncName ownerName
  cases m.cls with
  | none => simp only [String.append_empty]
  | some c => rfl

theorem split_at_first (x : Char) :
    ∀ (a c b d : List Char), x ∉ a → x ∉ c → a ++ x :: b = c ++ x :: d → a = c ∧ b = d := by
  intro a
  induction a with
  | nil =>
    intro c b d _ hc heq
    cases c with
    | nil =>
      simp only [List.nil_append, List.cons.injEq, true_and] at heq
      exact ⟨rfl, heq⟩
    | cons y c1 =>
      simp only [List.nil_append, List.cons_append, List.cons.injEq] at heq
      exact absurd (heq.1 ▸ List.mem_cons_self _ _) hc
  | cons y a1 ih =>
    intro c b d ha hc heq
    cases c with
    | nil =>
      simp only [List.nil_append, List.cons_append, List.cons.injEq] at heq
      exact absurd (heq.1 ▸ List.mem_cons_self _ _) ha
    | cons z c1 =>
      simp only [List.cons_append, List.cons.injEq] at heq
      obtain ⟨hyz, htail⟩ := heq
      obtain ⟨h1, h2⟩ := ih c1 b d (fun hm => ha (List.mem_cons_of_mem _ hm))
        (fun hm => hc (List.mem_cons_of_mem _ hm)) htail
      exact ⟨by rw [hyz, h1], h2⟩

/-- C6, as stated, fails: owner `A_b` with member `c` and owner `A` with member
`b_c` get the same glue function name, and so do a member without owner and a
member of an owner with the empty name. -/
theorem funcName_collision :
    FuncName (memberOf "A_b" "c") = FuncName (memberOf "A" "b_c") ∧
    (memberOf "A_b" "c").cls ≠ (memberOf "A" "b_c").cls ∧
    (memberOf "A_b" "c").name ≠ (memberOf "A" "b_c").name ∧
    FuncName { memberOf "" "f" with cls := none } = FuncName (memberOf "" "f") ∧
    ({ memberOf "" "f" with cls := none } : method).cls ≠ (memberOf "" "f").cls := by
  decide

/-- C6, amended. Two descriptors with the same glue function name have the
same scope; and when neither owner name contains an underscore (an absent
owner counting as the empty name) they also have the same owner name and the
same native name. -/
theorem funcName_injective (m1 m2 : method) (hf : FuncName m1 = FuncName m2) :
    m1.scope = m2.scope ∧
    ('_' ∉ (ownerName m1).data → '_' ∉ (ownerName m2).data →
      ownerName m1 = ownerName m2 ∧ m1.name = m2.name) := by
  rw [FuncName_eq m1, FuncName_eq m2] at hf
  have hd := congrArg String.data hf
  simp only [String.data_append, List.append_assoc] at hd
  have hscope : m1.scope = m2.scope := by
    cases h1 : m1.scope <;> cases h2 : m2.scope <;> rw [h1, h2] at hd <;>
      first
        | rfl
        | (exfalso; simp at hd)
  refine ⟨hscope, ?_⟩
  intro hn1 hn2
  rw [hscope] at hd
  have hd1 := List.append_cancel_left hd
  have hd2 := List.append_cancel_left hd1
  have hd3 := List.append_cancel_left hd2
  obtain ⟨ho, hname⟩ := split_at_first '_' _ _ _ _ hn1 hn2 hd3
  exact ⟨String.ext ho, String.ext hname⟩

/-- Two descriptors that differ only in their parameters share the glue
function name, the scope, the owner name and the native name. -/
theorem funcName_injective_witness :
    FuncName { memberOf "File" "close" with args := ["x"] } = FuncName (memberOf "File" "close") ∧
    ({ memberOf "File" "close" with args := ["x"] } : method).scope
      = (memberOf "File" "close").scope ∧
    ('_' ∉ (ownerName { memberOf "File" "close" with args := ["x"] }).data →
      '_' ∉ (ownerName (memberOf "File" "close")).data →
      ownerName { memberOf "File" "close" with args := ["x"] }
        = ownerName (memberOf "File" "close") ∧
      ({ memberOf "File" "close" with args := ["x"] } : method).name
        = (memberOf "File" "close").name) :=
  ⟨rfl, funcName_injective { memberOf "File" "close" with args := ["x"] }
    (memberOf "File" "close") rfl⟩

/-! ## C7: the indirection markers of `typeToGo` -/

theorem Join_replicate_empty (k : Nat) :
    Join (List.replicate (k + 1) "") "&" = String.mk (List.replicate k '&') := by
  induction k with
  | zero => rfl
  | succ k ih =>
    have hstep : Join (List.replicate (k + 1 + 1) "") "&"
        = "" ++ "&" ++ Join (List.replicate (k + 1) "") "&" := rfl
    rw [hstep, ih]
    rfl

theorem ampersands_count (n : Nat) :
    ampersands (n : Int) = .ok (String.mk (List.replicate (n - 1) '&')) := by
  rw [ampersands_ok _ (Int.ofNat_nonneg n), Int.toNat_ofNat]
  cases n with
  | zero => rfl
  | succ k => rw [Join_replicate_empty]; rfl

/-- C7, as stated, fails: at indirection 1 `typeToGo` returns the base
expression itself, with no `&` in front. -/
theorem typeToGo_one_marker :
    castExpr 1 plainHelpers plainGenerator "int" "x" = .ok "int(gorb.GoInt(x))" ∧
    typeToGo 1 plainHelpers plainGenerator { plainMethod with indirection := 1 } "int" "x"
      = .ok "int(gorb.GoInt(x))" ∧
    "int(gorb.GoInt(x))".length ≠ "int(gorb.GoInt(x))".length + 1 ∧
    "int(gorb.GoInt(x))".data.head? ≠ some '&' :=
  ⟨rfl, rfl, by decide, by decide⟩

/-- C7, amended. For indirection `n ≥ 0`, a type with a conversion pair and an
alias chain that ends, `typeToGo` returns the base conversion expression
preceded by exactly `n - 1` markers `&` (none for `n = 0` and for `n = 1`), so
its length exceeds the length of the base expression by `n - 1`. -/
theorem typeToGo_markers (fuel : Nat) (h : Helpers) (g : Generator) (m : method)
    (typ val : String) (n : Nat) (hn : m.indirection = (n : Int))
    (hp : 2 ≤ (g.returnTypes typ).length)
    (hc : h.isExported typ = true → ∃ v, aliasChase g.revTypeAliasMap fuel typ = some v) :
    ∃ base, castExpr fuel h g typ val = .ok base ∧
      typeToGo fuel h g m typ val = .ok (String.mk (List.replicate (n - 1) '&') ++ base) ∧
      (String.mk (List.replicate (n - 1) '&') ++ base).length = (n - 1) + base.length := by
  obtain ⟨base, hbase⟩ := castExpr_ok fuel h g typ val hp hc
  refine ⟨base, hbase, ?_, ?_⟩
  · unfold typeToGo
    simp only [hbase, hn, ampersands_count, bind, Except.bind, pure, Except.pure]
  · rw [String.length_append, String.length_mk, List.length_replicate]

/-- At indirection 3 the cast of an `int` is preceded by two markers. -/
theorem typeToGo_markers_witness :
    ({ plainMethod with indirection := 3 } : method).indirection = ((3 : Nat) : Int) ∧
    2 ≤ (plainGenerator.returnTypes "int").length ∧
    ∃ base, castExpr 1 plainHelpers plainGenerator "int" "x" = .ok base ∧
      typeToGo 1 plainHelpers plainGenerator { plainMethod with indirection := 3 } "int" "x"
        = .ok (String.mk (List.replicate (3 - 1) '&') ++ base) ∧
      (String.mk (List.replicate (3 - 1) '&') ++ base).length = (3 - 1) + base.length :=
  ⟨rfl, by decide, typeToGo_markers 1 plainHelpers plainGenerator
    { plainMethod with indirection := 3 } "int" "x" 3 rfl (by decide)
    (fun he => Bool.noConfusion he)⟩

/-! ## C8: a member without return type -/

/-- C8. With an empty `returnTypes`, `ReturnTypeToRuby` returns `"C.Qnil"` and
leaves the generator (so `usedImports`) as it is, whatever the other fields
and the resolver are.  The glue function, whenever it renders, ends with
`return C.Qnil` and the closing brace and leaves the generator as it is; and
it does render when `GlueReady` holds. -/
theorem no_return_sentinel (fuel : Nat) (h : Helpers) (g : Generator) (m : method)
    (hr : m.returnTypes = []) :
    ReturnTypeToRuby h g m = .ok ("C.Qnil", g) ∧
    (∀ s g1, tplGlue fuel h g m = .ok (s, g1) →
      g1 = g ∧ ∃ body, s = body ++ "\n\treturn C.Qnil" ++ "\n\x7d") ∧
    (GlueReady fuel h g m →
      ∃ body, tplGlue fuel h g m = .ok (body ++ "\n\treturn C.Qnil" ++ "\n\x7d", g)) := by
  have hpos : HasReturnType m = false := by
    unfold HasReturnType
    rw [hr]; rfl
  refine ⟨?_, ?_, ?_⟩
  · unfold ReturnTypeToRuby
    rw [hr]
    rfl
  · intro s g1 hres
    unfold tplGlue at hres
    obtain ⟨pro, _, hres⟩ := bind_ok _ _ _ hres
    simp only [hpos, Bool.false_eq_true, if_false] at hres
    obtain ⟨call, _, hres⟩ := bind_ok _ _ _ hres
    obtain ⟨re, _, hres⟩ := bind_ok _ _ _ hres
    injection hres with hres
    injection hres with hs hg
    exact ⟨hg.symm, _, hs.symm⟩
  · intro hw
    obtain ⟨pro, hpro⟩ := gluePrologue_ok fuel h g m hw
    obtain ⟨ga, _, hcall⟩ := nativeCall_ok fuel h g m hw
    have hre : RaiseError m = .ok "" := by
      apply RaiseError_plain
      rw [hr]; simp
    unfold tplGlue
    simp only [hpro, hpos, hcall, hre, Bool.false_eq_true, if_false, bind, Except.bind, pure,
      Except.pure]
    exact ⟨_, rfl⟩

/-- The descriptor `plainMethod` has no return type: `ReturnTypeToRuby` gives
`C.Qnil`, and its glue function renders and ends with `return C.Qnil`. -/
theorem no_return_sentinel_witness :
    plainMethod.returnTypes = [] ∧
    ReturnTypeToRuby plainHelpers plainGenerator plainMethod = .ok ("C.Qnil", plainGenerator) ∧
    ∃ body, tplGlue 1 plainHelpers plainGenerator plainMethod
      = .ok (body ++ "\n\treturn C.Qnil" ++ "\n\x7d", plainGenerator) :=
  ⟨rfl, (no_return_sentinel 1 plainHelpers plainGenerator plainMethod rfl).1,
   (no_return_sentinel 1 plainHelpers plainGenerator plainMethod rfl).2.2
    (glueReady_plain 1 plainMethod (by decide) (fun hs => absurd hs (by decide)) (by decide))⟩

/-! ## C9: boxing a value of an owned class -/

/-- C9. With a non-empty `returnTypes` and a resolved return class `r` that is
non-empty and exported, `ReturnTypeToRuby` returns
`gorb.StructValue(V, unsafe.Pointer(P))`, where `V` is the class variable of
`findClass(r)` or `rb_cObject` when there is none, and `P` is `&ret` at
indirection 0 and `ret` otherwise; the generator is left as it is.
`BlockArgToRb n` returns the same text with the name of callback parameter `n`
in place of `ret` when the resolved type of that parameter is non-empty and
exported. -/
theorem owned_class_boxing (h : Helpers) (g : Generator) (m : method) :
    (∀ r, m.returnTypes ≠ [] → ResolvedReturnClass g m = r → r ≠ "" →
      h.isExported r = true →
      ReturnTypeToRuby h g m = .ok ("gorb.StructValue("
        ++ (match g.findClass r with
            | some c => c.VarName
            | none => "rb_cObject")
        ++ ", unsafe.Pointer(" ++ (if m.indirection = 0 then "&" ++ "ret" else "ret")
        ++ "))", g)) ∧
    (∀ n a t r, m.blockArgs[n]? = some a → m.blockArgTypes[n]? = some t →
      g.resolvedType t = r → r ≠ "" → h.isExported r = true →
      BlockArgToRb h g m n = .ok ("gorb.StructValue("
        ++ (match g.findClass r with
            | some c => c.VarName
            | none => "rb_cObject")
        ++ ", unsafe.Pointer(" ++ (if m.indirection = 0 then "&" ++ a else a)
        ++ "))", g)) := by
  refine ⟨?_, ?_⟩
  · intro r hne hr hr0 hex
    have h0 : ¬ (m.returnTypes.length = 0) := fun hl => hne (List.length_eq_zero.1 hl)
    unfold ReturnTypeToRuby
    rw [if_neg h0]
    dsimp only
    rw [hr, if_pos ⟨hr0, hex⟩]
    rfl
  · intro n a t r ha ht hr hr0 hex
    unfold BlockArgToRb index
    simp only [ha, ht, bind, Except.bind]
    rw [hr, if_pos ⟨hr0, hex⟩]
    rfl

/-- The member `dup` of `File` returns its `File` boxed with the class variable
`g_cFile` by address, and boxes the callback argument `f` the same way. -/
theorem owned_class_boxing_witness :
    ReturnTypeToRuby fileHelpers fileGenerator dupMethod
      = .ok ("gorb.StructValue(" ++ "g_cFile" ++ ", unsafe.Pointer(" ++ "&ret" ++ "))",
          fileGenerator) ∧
    BlockArgToRb fileHelpers fileGenerator dupMethod 0
      = .ok ("gorb.StructValue(" ++ "g_cFile" ++ ", unsafe.Pointer(" ++ "&f" ++ "))",
          fileGenerator) :=
  ⟨(owned_class_boxing fileHelpers fileGenerator dupMethod).1 "File" (by decide) rfl
      (by decide) rfl,
   (owned_class_boxing fileHelpers fileGenerator dupMethod).2 0 "f" "File" "File" rfl rfl rfl
      (by decide) rfl⟩

/-! ## C10: the receiver of the `gorb.Yield` call -/

/-- C10 at the callback `(line string) (int, error)`: `BlockReceiverVars`
answers `"ret, err"`, yet the trampoline binds the single variable `ret` at
its `gorb.Yield` line, because the template writes `ret :=` there and never
calls `BlockReceiverVars`. -/
theorem yield_receiver_single :
    BlockReceiverVars eachMethod = .ok "ret, err" ∧
    (tplBlock 1 plainHelpers plainGenerator eachMethod).toOption.map Prod.fst
      = some ("\n\nfunc block__g_cmethod__each(line string) (int, error) \x7b"
        ++ "\n\trb_line := gorb.Int(line))"
        ++ "\n\tret := gorb.Yield(rb_line)"
        ++ "\n\treturn int(gorb.GoInt(ret))"
        ++ "\n\x7d") :=
  ⟨rfl, rfl⟩

/-! ## Which fault an evaluation can end in -/

theorem ok_of_no_fault {α : Type} (x : Except Fault α)
    (ha : x ≠ .error .abort) (hs : x ≠ .error .stall) : ∃ a, x = .ok a := by
  cases x with
  | ok a => exact ⟨a, rfl⟩
  | error e =>
    cases e with
    | abort => exact absurd rfl ha
    | stall => exact absurd rfl hs

theorem bind_avoids {α β : Type} (e : Fault) (x : Except Fault α) (f : α → Except Fault β)
    (hx : x ≠ .error e) (hf : ∀ a, x = .ok a → f a ≠ .error e) : (x >>= f) ≠ .error e := by
  cases x with
  | error e1 =>
    intro hb
    have hb2 : (Except.error e1 : Except Fault β) = .error e := hb
    injection hb2 with he
    exact hx (by rw [he])
  | ok a => exact hf a rfl

theorem index_no_stall (xs : List String) (n : Nat) : index xs n ≠ .error .stall := by
  unfold index
  split <;> intro hc <;> cases hc

theorem lastEntry_no_stall (xs : List String) : lastEntry xs ≠ .error .stall := by
  unfold lastEntry
  split <;> intro hc <;> cases hc

theorem ampersands_no_stall (n : Int) : ampersands n ≠ .error .stall := by
  unfold ampersands
  split <;> intro hc <;> cases hc

theorem castName_no_abort (fuel : Nat) (h : Helpers) (g : Generator) (typ : String) :
    castName fuel h g typ ≠ .error .abort := by
  unfold castName
  split
  · split <;> intro hc <;> cases hc
  · intro hc; cases hc

theorem castName_no_stall (fuel : Nat) (h : Helpers) (g : Generator) (typ : String)
    (hc : h.isExported typ = true → ∃ v, aliasChase g.revTypeAliasMap fuel typ = some v) :
    castName fuel h g typ ≠ .error .stall := by
  obtain ⟨s, hs⟩ := castName_ok fuel h g typ hc
  rw [hs]
  intro hx; cases hx

theorem castExpr_no_abort (fuel : Nat) (h : Helpers) (g : Generator) (typ val : String)
    (hp : 2 ≤ (g.returnTypes typ).length) : castExpr fuel h g typ val ≠ .error .abort := by
  have h1 : 1 < (g.returnTypes typ).length := by omega
  unfold castExpr
  simp only [index_of_lt _ _ h1]
  apply bind_avoids
  · intro hc; cases hc
  · intro t1 _
    apply bind_avoids
    · exact castName_no_abort fuel h g typ
    · intro v _
      split <;> intro hc <;> cases hc

theorem castExpr_no_stall (fuel : Nat) (h : Helpers) (g : Generator) (typ val : String)
    (hc : h.isExported typ = true → ∃ v, aliasChase g.revTypeAliasMap fuel typ = some v) :
    castExpr fuel h g typ val ≠ .error .stall := by
  unfold castExpr
  apply bind_avoids
  · exact index_no_stall _ _
  · intro t1 _
    apply bind_avoids
    · exact castName_no_stall fuel h g typ hc
    · intro v _
      split <;> intro hx <;> cases hx

theorem typeToGo_no_abort (fuel : Nat) (h : Helpers) (g : Generator) (m : method)
    (typ val : String) (hd : 0 ≤ m.indirection) (hp : 2 ≤ (g.returnTypes typ).length) :
    typeToGo fuel h g m typ val ≠ .error .abort := by
  unfold typeToGo
  apply bind_avoids
  · exact castExpr_no_abort fuel h g typ val hp
  · intro out _
    rw [ampersands_ok _ hd]
    intro hx; cases hx

theorem typeToGo_no_stall (fuel : Nat) (h : Helpers) (g : Generator) (m : method)
    (typ val : String)
    (hc : h.isExported typ = true → ∃ v, aliasChase g.revTypeAliasMap fuel typ = some v) :
    typeToGo fuel h g m typ val ≠ .error .stall := by
  unfold typeToGo
  apply bind_avoids
  · exact castExpr_no_stall fuel h g typ val hc
  · intro out _
    apply bind_avoids
    · exact ampersands_no_stall _
    · intro amp _ hx; cases hx

theorem index_ok_mem (xs : List String) (n : Nat) (x : String) (hx : index xs n = .ok x) :
    x ∈ xs := by
  unfold index at hx
  cases hg : xs[n]? with
  | none => rw [hg] at hx; cases hx
  | some y =>
    rw [hg] at hx
    injection hx with hxy
    rw [← hxy]
    exact List.getElem?_mem hg

theorem index_ok_lt (xs : List String) (n : Nat) (x : String) (hx : index xs n = .ok x) :
    n < xs.length := by
  unfold index at hx
  cases hg : xs[n]? with
  | none => rw [hg] at hx; cases hx
  | some y =>
    by_contra hlt
    rw [List.getElem?_eq_none (Nat.le_of_not_lt hlt)] at hg
    cases hg

theorem Frame.returnTypes_eq {g g1 : Generator} (hf : Frame g g1) :
    g1.returnTypes = g.returnTypes := by
  obtain ⟨u, rfl⟩ := hf
  rfl

theorem Frame.revTypeAliasMap_eq {g g1 : Generator} (hf : Frame g g1) :
    g1.revTypeAliasMap = g.revTypeAliasMap := by
  obtain ⟨u, rfl⟩ := hf
  rfl

theorem Frame.isValueType_eq {g g1 : Generator} (hf : Frame g g1) :
    g1.isValueType = g.isValueType := by
  obtain ⟨u, rfl⟩ := hf
  rfl

theorem WellFormed.of_returnTypes {g g1 : Generator} {m : method} (hw : WellFormed g m)
    (hr : g1.returnTypes = g.returnTypes) : WellFormed g1 m :=
  { argsAligned := hw.argsAligned
    blockAligned := hw.blockAligned
    depth := hw.depth
    owner := hw.owner
    pairs := fun t => by rw [hr]; exact hw.pairs t }

theorem WellFormed.renderable {g : Generator} {m : method} (hw : WellFormed g m) :
    Renderable g m :=
  { argsTyped := Nat.le_of_eq hw.argsAligned
    blockTyped := Nat.le_of_eq hw.blockAligned
    depth := hw.depth
    owner := hw.owner
    pairs := hw.pairs }

theorem Renderable.with_returnTypes {g g1 : Generator} {m : method} (hw : Renderable g m)
    (hr : g1.returnTypes = g.returnTypes) : Renderable g1 m :=
  { argsTyped := hw.argsTyped
    blockTyped := hw.blockTyped
    depth := hw.depth
    owner := hw.owner
    pairs := fun t => by rw [hr]; exact hw.pairs t }

theorem ChainsEnd.of_aliasMap {fuel : Nat} {h : Helpers} {g g1 : Generator} {m : method}
    (hc : ChainsEnd fuel h g m) (hr : g1.revTypeAliasMap = g.revTypeAliasMap) :
    ChainsEnd fuel h g1 m := by
  intro t ht he
  rw [hr]
  exact hc t ht he

theorem ArgToGo_no_abort (fuel : Nat) (h : Helpers) (g : Generator) (m : method)
    (hw : Renderable g m) (n : Nat) (hn : n < m.args.length) :
    ArgToGo fuel h g m n ≠ .error .abort := by
  have hlt : n < m.argTypes.length := Nat.lt_of_lt_of_le hn hw.argsTyped
  unfold ArgToGo
  simp only [index_of_lt _ _ hlt, index_of_lt _ _ hn, bind, Except.bind]
  exact typeToGo_no_abort fuel h g m _ _ hw.depth (by rw [hw.pairs])

theorem ArgToGo_no_stall (fuel : Nat) (h : Helpers) (g : Generator) (m : method)
    (hc : ChainsEnd fuel h g m) (n : Nat) : ArgToGo fuel h g m n ≠ .error .stall := by
  unfold ArgToGo
  apply bind_avoids
  · exact index_no_stall _ _
  · intro typ htyp
    apply bind_avoids
    · exact index_no_stall _ _
    · intro val _
      exact typeToGo_no_stall fuel h g m typ val
        (hc typ (Or.inl (index_ok_mem _ _ _ htyp)))

theorem rangeArgs_no_abort (fuel : Nat) (h : Helpers) (g : Generator) (m : method)
    (hw : Renderable g m) :
    ∀ (vs : List String) (i : Nat), i + vs.length ≤ m.args.length →
      rangeArgs fuel h g m i vs ≠ .error .abort := by
  intro vs
  induction vs with
  | nil => intro i _ hx; cases hx
  | cons v vs ih =>
    intro i hi
    simp only [List.length_cons] at hi
    unfold rangeArgs
    apply bind_avoids
    · exact ArgToGo_no_abort fuel h g m hw i (by omega)
    · intro s _
      apply bind_avoids
      · exact ih (i + 1) (by omega)
      · intro rest _ hx; cases hx

theorem rangeArgs_no_stall (fuel : Nat) (h : Helpers) (g : Generator) (m : method)
    (hc : ChainsEnd fuel h g m) :
    ∀ (vs : List String) (i : Nat), rangeArgs fuel h g m i vs ≠ .error .stall := by
  intro vs
  induction vs with
  | nil => intro i hx; cases hx
  | cons v vs ih =>
    intro i
    unfold rangeArgs
    apply bind_avoids
    · exact ArgToGo_no_stall fuel h g m hc i
    · intro s _
      apply bind_avoids
      · exact ih (i + 1)
      · intro rest _ hx; cases hx

theorem ClassName_no_stall (m : method) : ClassName m ≠ .error .stall := by
  unfold ClassName
  split <;> intro hx <;> cases hx

theorem ClassVar_no_stall (m : method) : ClassVar m ≠ .error .stall := by
  unfold ClassVar
  split <;> intro hx <;> cases hx

theorem gluePrologue_no_abort (fuel : Nat) (h : Helpers) (g : Generator) (m : method)
    (hw : Renderable g m) : gluePrologue fuel h g m ≠ .error .abort := by
  have hconv := rangeArgs_no_abort fuel h g m hw m.args 0 (by omega)
  unfold gluePrologue
  dsimp only
  split
  · rename_i hs
    have hinst := (Scope_ne_Class m).1 hs
    obtain ⟨c, hc⟩ := hw.owner (fun hm => by rw [hinst] at hm; exact absurd hm.1 (by decide))
    simp only [ClassName, hc, bind, Except.bind, pure, Except.pure]
    apply bind_avoids
    · exact hconv
    · intro conv _ hx; cases hx
  · simp only [bind, Except.bind, pure, Except.pure]
    apply bind_avoids
    · exact hconv
    · intro conv _ hx; cases hx

theorem gluePrologue_no_stall (fuel : Nat) (h : Helpers) (g : Generator) (m : method)
    (hc : ChainsEnd fuel h g m) : gluePrologue fuel h g m ≠ .error .stall := by
  have hconv := rangeArgs_no_stall fuel h g m hc m.args 0
  unfold gluePrologue
  dsimp only
  split
  · apply bind_avoids
    · exact ClassName_no_stall m
    · intro c _
      simp only [bind, Except.bind, pure, Except.pure]
      apply bind_avoids
      · exact hconv
      · intro conv _ hx; cases hx
  · simp only [bind, Except.bind, pure, Except.pure]
    apply bind_avoids
    · exact hconv
    · intro conv _ hx; cases hx

theorem goArgsLoop_no_stall (g : Generator) (m : method) :
    ∀ (as : List String) (i : Nat), goArgsLoop g m i as ≠ .error .stall := by
  intro as
  induction as with
  | nil => intro i hx; cases hx
  | cons a as ih =>
    intro i
    unfold goArgsLoop
    apply bind_avoids
    · exact index_no_stall _ _
    · intro t _
      apply bind_avoids
      · exact ih (i + 1)
      · intro rest _ hx; cases hx

theorem nativeCall_no_stall (h : Helpers) (g : Generator) (m : method) :
    nativeCall h g m ≠ .error .stall := by
  unfold nativeCall GoArgs
  apply bind_avoids
  · apply bind_avoids
    · exact goArgsLoop_no_stall g m _ 0
    · intro l _ hx; cases hx
  · intro ga _ hx; cases hx

theorem nativeCall_no_abort (h : Helpers) (g : Generator) (m : method)
    (hw : Renderable g m) : nativeCall h g m ≠ .error .abort := by
  obtain ⟨l, hl⟩ := goArgsLoop_ok g m m.args 0 (by have := hw.argsTyped; omega)
  unfold nativeCall GoArgs
  simp only [hl, bind, Except.bind, pure, Except.pure]
  intro hx; cases hx

theorem ReceiverVars_no_stall (m : method) : ReceiverVars m ≠ .error .stall := by
  unfold ReceiverVars
  apply bind_avoids
  · exact lastEntry_no_stall _
  · intro l _
    split <;> intro hx <;> cases hx

theorem RaiseError_ok (m : method) : ∃ s, RaiseError m = .ok s := by
  by_cases he : m.returnTypes.getLast? = some "error"
  · exact ⟨_, RaiseError_error m he⟩
  · exact ⟨_, RaiseError_plain m he⟩

theorem ReturnTypeToRuby_no_stall (h : Helpers) (g : Generator) (m : method) :
    ReturnTypeToRuby h g m ≠ .error .stall := by
  unfold ReturnTypeToRuby
  split
  · intro hx; cases hx
  · dsimp only
    split
    · intro hx; cases hx
    · split
      · intro hx; cases hx
      · apply bind_avoids
        · exact index_no_stall _ _
        · intro t0 _ hx; cases hx

theorem ReturnTypeToRuby_no_abort (h : Helpers) (g : Generator) (m : method)
    (hp : ∀ t, (g.returnTypes t).length = 2) : ReturnTypeToRuby h g m ≠ .error .abort := by
  have h1 : 0 < (g.returnTypes (ResolvedReturnType g m)).length := by rw [hp]; omega
  unfold ReturnTypeToRuby
  split
  · intro hx; cases hx
  · dsimp only
    split
    · intro hx; cases hx
    · split
      · intro hx; cases hx
      · simp only [index_of_lt _ _ h1, bind, Except.bind, pure, Except.pure]
        intro hx; cases hx

theorem tplGlue_no_abort (fuel : Nat) (h : Helpers) (g : Generator) (m : method)
    (hw : Renderable g m) : tplGlue fuel h g m ≠ .error .abort := by
  obtain ⟨re, hre⟩ := RaiseError_ok m
  unfold tplGlue
  apply bind_avoids
  · exact gluePrologue_no_abort fuel h g m hw
  · intro pro _
    split
    · rename_i hpos
      have hne : m.returnTypes ≠ [] := by
        intro hn
        unfold HasReturnType at hpos
        rw [hn] at hpos
        exact absurd hpos (by decide)
      apply bind_avoids
      · unfold ReceiverVars
        simp only [lastEntry_of_ne_nil _ hne, bind, Except.bind]
        split <;> intro hx <;> cases hx
      · intro rv _
        apply bind_avoids
        · exact nativeCall_no_abort h g m hw
        · intro call _
          rw [hre]
          apply bind_avoids
          · intro hx; cases hx
          · intro re1 _
            apply bind_avoids
            · exact ReturnTypeToRuby_no_abort h g m hw.pairs
            · intro r _ hx; cases hx
    · apply bind_avoids
      · exact nativeCall_no_abort h g m hw
      · intro call _
        rw [hre]
        intro hx; cases hx

theorem tplGlue_no_stall (fuel : Nat) (h : Helpers) (g : Generator) (m : method)
    (hc : ChainsEnd fuel h g m) : tplGlue fuel h g m ≠ .error .stall := by
  obtain ⟨re, hre⟩ := RaiseError_ok m
  unfold tplGlue
  apply bind_avoids
  · exact gluePrologue_no_stall fuel h g m hc
  · intro pro _
    split
    · apply bind_avoids
      · exact ReceiverVars_no_stall m
      · intro rv _
        apply bind_avoids
        · exact nativeCall_no_stall h g m
        · intro call _
          rw [hre]
          apply bind_avoids
          · intro hx; cases hx
          · intro re1 _
            apply bind_avoids
            · exact ReturnTypeToRuby_no_stall h g m
            · intro r _ hx; cases hx
    · apply bind_avoids
      · exact nativeCall_no_stall h g m
      · intro call _
        rw [hre]
        intro hx; cases hx

theorem blockSigArgs_no_stall (m : method) :
    ∀ (ns : List String) (i : Nat), blockSigArgs m i ns ≠ .error .stall := by
  intro ns
  induction ns with
  | nil => intro i hx; cases hx
  | cons n ns ih =>
    intro i
    unfold blockSigArgs
    apply bind_avoids
    · exact index_no_stall _ _
    · intro t _
      apply bind_avoids
      · exact ih (i + 1)
      · intro rest _ hx; cases hx

theorem blockSigArgs_ok (m : method) :
    ∀ (ns : List String) (i : Nat), i + ns.length ≤ m.blockArgTypes.length →
      ∃ l, blockSigArgs m i ns = .ok l := by
  intro ns
  induction ns with
  | nil => intro i _; exact ⟨[], rfl⟩
  | cons n ns ih =>
    intro i hi
    simp only [List.length_cons] at hi
    obtain ⟨l, hl⟩ := ih (i + 1) (by omega)
    have hlt : i < m.blockArgTypes.length := by omega
    simp only [blockSigArgs, index_of_lt _ _ hlt, hl, bind, Except.bind, pure, Except.pure]
    exact ⟨_, rfl⟩

theorem rbBlockArgsLoop_no_stall (g : Generator) (m : method) :
    ∀ (as : List String) (i : Nat), rbBlockArgsLoop g m i as ≠ .error .stall := by
  intro as
  induction as with
  | nil => intro i hx; cases hx
  | cons a as ih =>
    intro i
    unfold rbBlockArgsLoop
    apply bind_avoids
    · exact index_no_stall _ _
    · intro t _
      apply bind_avoids
      · exact ih (i + 1)
      · intro rest _ hx; cases hx

theorem rbBlockArgsLoop_ok (g : Generator) (m : method) :
    ∀ (as : List String) (i : Nat), i + as.length ≤ m.blockArgTypes.length →
      ∃ l, rbBlockArgsLoop g m i as = .ok l := by
  intro as
  induction as with
  | nil => intro i _; exact ⟨[], rfl⟩
  | cons a as ih =>
    intro i hi
    simp only [List.length_cons] at hi
    obtain ⟨l, hl⟩ := ih (i + 1) (by omega)
    have hlt : i < m.blockArgTypes.length := by omega
    simp only [rbBlockArgsLoop, index_of_lt _ _ hlt, hl, bind, Except.bind, pure, Except.pure]
    exact ⟨_, rfl⟩

theorem BlockArgToRb_no_stall (h : Helpers) (g : Generator) (m : method) (n : Nat) :
    BlockArgToRb h g m n ≠ .error .stall := by
  unfold BlockArgToRb
  apply bind_avoids
  · exact index_no_stall _ _
  · intro ret _
    apply bind_avoids
    · exact index_no_stall _ _
    · intro typ _
      dsimp only
      split
      · intro hx; cases hx
      · split
        · intro hx; cases hx
        · apply bind_avoids
          · exact index_no_stall _ _
          · intro t0 _ hx; cases hx

theorem BlockArgToRb_no_abort (h : Helpers) (g : Generator) (m : method) (n : Nat)
    (hn : n < m.blockArgs.length) (ht : n < m.blockArgTypes.length)
    (hp : ∀ t, (g.returnTypes t).length = 2) : BlockArgToRb h g m n ≠ .error .abort := by
  have h1 : 0 < (g.returnTypes (m.blockArgTypes.get ⟨n, ht⟩)).length := by rw [hp]; omega
  unfold BlockArgToRb
  simp only [index_of_lt _ _ hn, index_of_lt _ _ ht, bind, Except.bind, pure, Except.pure]
  split
  · intro hx; cases hx
  · split
    · intro hx; cases hx
    · simp only [index_of_lt _ _ h1]
      intro hx; cases hx

theorem rangeBlockArgs_no_stall (h : Helpers) (m : method) :
    ∀ (vs : List String) (g : Generator) (i : Nat),
      rangeBlockArgs h m g i vs ≠ .error .stall := by
  intro vs
  induction vs with
  | nil => intro g i hx; cases hx
  | cons v vs ih =>
    intro g i
    unfold rangeBlockArgs
    apply bind_avoids
    · exact BlockArgToRb_no_stall h g m i
    · intro r _
      apply bind_avoids
      · exact ih r.2 (i + 1)
      · intro r2 _ hx; cases hx

theorem rangeBlockArgs_no_abort (h : Helpers) (m : method)
    (hlen : m.blockArgs.length ≤ m.blockArgTypes.length) :
    ∀ (vs : List String) (g : Generator) (i : Nat),
      (∀ t, (g.returnTypes t).length = 2) → i + vs.length ≤ m.blockArgs.length →
      rangeBlockArgs h m g i vs ≠ .error .abort := by
  intro vs
  induction vs with
  | nil => intro g i _ _ hx; cases hx
  | cons v vs ih =>
    intro g i hp hi
    simp only [List.length_cons] at hi
    unfold rangeBlockArgs
    apply bind_avoids
    · exact BlockArgToRb_no_abort h g m i (by omega) (by omega) hp
    · intro r hr
      have hf := BlockArgToRb_frame h g m i r.1 r.2 hr
      apply bind_avoids
      · exact ih r.2 (i + 1) (fun t => by rw [hf.returnTypes_eq]; exact hp t) (by omega)
      · intro r2 _ hx; cases hx

theorem BlockReturnTypeToGo_no_stall (fuel : Nat) (h : Helpers) (g : Generator) (m : method)
    (hc : ChainsEnd fuel h g m) : BlockReturnTypeToGo fuel h g m ≠ .error .stall := by
  unfold BlockReturnTypeToGo
  apply bind_avoids
  · exact index_no_stall _ _
  · intro typ htyp
    apply typeToGo_no_stall
    apply hc typ
    right
    unfold index at htyp
    cases hm : m.blockReturnTypes with
    | nil => rw [hm] at htyp; cases htyp
    | cons a as =>
      rw [hm] at htyp
      simp only [List.getElem?_cons_zero] at htyp
      injection htyp with ha
      rw [← ha]
      rfl

theorem BlockReturnTypeToGo_no_abort (fuel : Nat) (h : Helpers) (g : Generator) (m : method)
    (hw : Renderable g m) (hne : m.blockReturnTypes ≠ []) :
    BlockReturnTypeToGo fuel h g m ≠ .error .abort := by
  have hlt : 0 < m.blockReturnTypes.length := List.length_pos.2 hne
  unfold BlockReturnTypeToGo
  simp only [index_of_lt _ _ hlt, bind, Except.bind]
  exact typeToGo_no_abort fuel h g m _ _ hw.depth (by rw [hw.pairs])

theorem tplBlock_no_stall (fuel : Nat) (h : Helpers) (g : Generator) (m : method)
    (hc : ChainsEnd fuel h g m) : tplBlock fuel h g m ≠ .error .stall := by
  unfold tplBlock
  split
  · apply bind_avoids
    · unfold BlockSig
      apply bind_avoids
      · exact blockSigArgs_no_stall m _ 0
      · intro l _ hx; cases hx
    · intro sig _
      apply bind_avoids
      · exact rangeBlockArgs_no_stall h m _ g 0
      · intro r hr
        have hf := rangeBlockArgs_frame h m _ g 0 r.1 r.2 hr
        dsimp only
        split
        · apply bind_avoids
          · unfold RbBlockArgs
            apply bind_avoids
            · exact rbBlockArgsLoop_no_stall _ m _ 0
            · intro l _ hx; cases hx
          · intro ra _
            apply bind_avoids
            · exact BlockReturnTypeToGo_no_stall fuel h r.2 m
                (hc.of_aliasMap hf.revTypeAliasMap_eq)
            · intro rt _ hx; cases hx
        · apply bind_avoids
          · unfold RbBlockArgs
            apply bind_avoids
            · exact rbBlockArgsLoop_no_stall _ m _ 0
            · intro l _ hx; cases hx
          · intro ra _ hx; cases hx
  · intro hx; cases hx

theorem tplBlock_no_abort (fuel : Nat) (h : Helpers) (g : Generator) (m : method)
    (hw : Renderable g m) : tplBlock fuel h g m ≠ .error .abort := by
  have hlen : m.blockArgs.length ≤ m.blockArgTypes.length := hw.blockTyped
  unfold tplBlock
  split
  · apply bind_avoids
    · obtain ⟨l, hl⟩ := blockSigArgs_ok m m.blockArgs 0 (by omega)
      unfold BlockSig
      simp only [hl, bind, Except.bind, pure, Except.pure]
      intro hx; cases hx
    · intro sig _
      apply bind_avoids
      · exact rangeBlockArgs_no_abort h m hlen _ g 0 hw.pairs (by unfold BlockArgsList; omega)
      · intro r hr
        have hf := rangeBlockArgs_frame h m _ g 0 r.1 r.2 hr
        have hra : ∀ g2 : Generator, RbBlockArgs g2 m ≠ .error .abort := by
          intro g2
          obtain ⟨l, hl⟩ := rbBlockArgsLoop_ok g2 m m.blockArgs 0 (by omega)
          unfold RbBlockArgs
          simp only [hl, bind, Except.bind, pure, Except.pure]
          intro hx; cases hx
        dsimp only
        split
        · rename_i hbr
          have hne : m.blockReturnTypes ≠ [] := by
            intro hn
            unfold HasBlockReturnType at hbr
            rw [hn] at hbr
            exact absurd hbr (by decide)
          apply bind_avoids
          · exact hra _
          · intro ra _
            apply bind_avoids
            · exact BlockReturnTypeToGo_no_abort fuel h r.2 m
                (hw.with_returnTypes hf.returnTypes_eq) hne
            · intro rt _ hx; cases hx
        · apply bind_avoids
          · exact hra _
          · intro ra _ hx; cases hx
  · intro hx; cases hx

theorem tplMethod_no_abort (fuel : Nat) (h : Helpers) (g : Generator) (m : method)
    (hw : Renderable g m) : tplMethod fuel h g m ≠ .error .abort := by
  unfold tplMethod
  apply bind_avoids
  · exact tplGlue_no_abort fuel h g m hw
  · intro r hr
    have hf := tplGlue_frame fuel h g m r.1 r.2 hr
    apply bind_avoids
    · exact tplBlock_no_abort fuel h r.2 m (hw.with_returnTypes hf.returnTypes_eq)
    · intro r2 _ hx; cases hx

theorem tplMethod_no_stall (fuel : Nat) (h : Helpers) (g : Generator) (m : method)
    (hc : ChainsEnd fuel h g m) : tplMethod fuel h g m ≠ .error .stall := by
  unfold tplMethod
  apply bind_avoids
  · exact tplGlue_no_stall fuel h g m hc
  · intro r hr
    have hf := tplGlue_frame fuel h g m r.1 r.2 hr
    apply bind_avoids
    · exact tplBlock_no_stall fuel h r.2 m (hc.of_aliasMap hf.revTypeAliasMap_eq)
    · intro r2 _ hx; cases hx

theorem registration_no_stall (h : Helpers) (g : Generator) (m : method) :
    registration h g m ≠ .error .stall := by
  unfold registration
  split
  · intro hx; cases hx
  · apply bind_avoids
    · exact ClassVar_no_stall m
    · intro cv _ hx; cases hx

theorem registration_ok (h : Helpers) (g : Generator) (m : method) (hw : Renderable g m) :
    ∃ line, registration h g m = .ok line := by
  by_cases hmod : m.scope = scope.classScope ∧ m.ctor = false
  · exact ⟨_, (registration_branches h g m).1 hmod⟩
  · obtain ⟨c, hc⟩ := hw.owner hmod
    exact ⟨_, (registration_branches h g m).2 hmod c hc⟩

theorem write_no_abort (fuel : Nat) (h : Helpers) (g : Generator) (m : method)
    (hw : Renderable g m) : write fuel h g m ≠ .error .abort := by
  obtain ⟨line, hline⟩ := registration_ok h g m hw
  unfold write
  simp only [hline, bind, Except.bind]
  apply bind_avoids
  · exact tplMethod_no_abort fuel h _ m (hw.with_returnTypes rfl)
  · intro r _ hx; cases hx

theorem write_no_stall (fuel : Nat) (h : Helpers) (g : Generator) (m : method)
    (hc : ChainsEnd fuel h g m) : write fuel h g m ≠ .error .stall := by
  unfold write
  apply bind_avoids
  · exact registration_no_stall h g m
  · intro line _
    apply bind_avoids
    · exact tplMethod_no_stall fuel h _ m (hc.of_aliasMap rfl)
    · intro r _ hx; cases hx

/-! ## The shape of a rendered template -/

theorem gluePrologue_eq (fuel : Nat) (h : Helpers) (g : Generator) (m : method) :
    gluePrologue fuel h g m = (do
      let recv ← receiverLine g m
      let conv ← rangeArgs fuel h g m 0 m.args
      pure (glueHead m ++ (if HasBlock m = true then enumCheck h g m else "")
        ++ recv ++ conv)) := by
  unfold gluePrologue receiverLine glueHead enumCheck ArgsList
  dsimp only
  split
  · cases ClassName m <;> rfl
  · rfl

theorem gluePrologue_inv (fuel : Nat) (h : Helpers) (g : Generator) (m : method)
    (pro : String) (hpro : gluePrologue fuel h g m = .ok pro) :
    ∃ recv conv, receiverLine g m = .ok recv ∧ rangeArgs fuel h g m 0 m.args = .ok conv ∧
      pro = glueHead m ++ (if HasBlock m = true then enumCheck h g m else "")
        ++ recv ++ conv := by
  rw [gluePrologue_eq] at hpro
  obtain ⟨recv, hrecv, hpro⟩ := bind_ok _ _ _ hpro
  obtain ⟨conv, hconv, hpro⟩ := bind_ok _ _ _ hpro
  injection hpro with hpro
  exact ⟨recv, conv, hrecv, hconv, hpro.symm⟩

theorem tplGlue_inv (fuel : Nat) (h : Helpers) (g : Generator) (m : method)
    (glue : String) (g1 : Generator) (hres : tplGlue fuel h g m = .ok (glue, g1)) :
    ∃ pro call lhs tail, gluePrologue fuel h g m = .ok pro ∧ nativeCall h g m = .ok call ∧
      glue = pro ++ "\n\t" ++ lhs ++ call ++ tail := by
  unfold tplGlue at hres
  obtain ⟨pro, hpro, hres⟩ := bind_ok _ _ _ hres
  split at hres
  · obtain ⟨rv, _, hres⟩ := bind_ok _ _ _ hres
    obtain ⟨call, hcall, hres⟩ := bind_ok _ _ _ hres
    obtain ⟨re, _, hres⟩ := bind_ok _ _ _ hres
    obtain ⟨⟨rt, g2⟩, _, hres⟩ := bind_ok _ _ _ hres
    injection hres with hres
    injection hres with hs _
    refine ⟨pro, call, rv ++ " := ", re ++ "\n\treturn " ++ rt ++ "\n\x7d", hpro, hcall, ?_⟩
    rw [← hs]
    simp only [String.append_assoc]
  · obtain ⟨call, hcall, hres⟩ := bind_ok _ _ _ hres
    obtain ⟨re, _, hres⟩ := bind_ok _ _ _ hres
    injection hres with hres
    injection hres with hs _
    refine ⟨pro, call, "", re ++ "\n\treturn C.Qnil" ++ "\n\x7d", hpro, hcall, ?_⟩
    rw [← hs]
    simp only [String.append_assoc, String.append_empty, String.empty_append]

theorem tplBlock_inv (fuel : Nat) (h : Helpers) (g : Generator) (m : method)
    (hb : m.blockArgs ≠ []) (s : String) (g1 : Generator)
    (hres : tplBlock fuel h g m = .ok (s, g1)) :
    ∃ sig conv ra, BlockSig m = .ok sig ∧
      rangeBlockArgs h m g 0 m.blockArgs = .ok (conv, g1) ∧ RbBlockArgs g1 m = .ok ra ∧
      (m.blockReturnTypes = [] →
        s = "\n\nfunc " ++ sig ++ " \x7b" ++ conv ++ "\n\tgorb.Yield(" ++ ra ++ ")\n\x7d") ∧
      (m.blockReturnTypes ≠ [] → ∃ rt, BlockReturnTypeToGo fuel h g1 m = .ok rt ∧
        s = "\n\nfunc " ++ sig ++ " \x7b" ++ conv ++ "\n\tret := gorb.Yield(" ++ ra
          ++ ")\n\treturn " ++ rt ++ "\n\x7d") := by
  have hhas : HasBlock m = true := by
    unfold HasBlock
    exact decide_eq_true (List.length_pos.2 hb)
  unfold tplBlock at hres
  rw [if_pos hhas] at hres
  obtain ⟨sig, hsig, hres⟩ := bind_ok _ _ _ hres
  obtain ⟨⟨conv, g2⟩, hconv, hres⟩ := bind_ok _ _ _ hres
  dsimp only at hres
  split at hres
  · rename_i hbr
    have hne : m.blockReturnTypes ≠ [] := by
      intro hn
      unfold HasBlockReturnType at hbr
      rw [hn] at hbr
      exact absurd hbr (by decide)
    obtain ⟨ra, hra, hres⟩ := bind_ok _ _ _ hres
    obtain ⟨rt, hrt, hres⟩ := bind_ok _ _ _ hres
    injection hres with hres
    injection hres with hs hg
    subst hg
    exact ⟨sig, conv, ra, hsig, hconv, hra, fun hn => absurd hn hne,
      fun _ => ⟨rt, hrt, hs.symm⟩⟩
  · rename_i hbr
    have hnil : m.blockReturnTypes = [] := by
      cases hm : m.blockReturnTypes with
      | nil => rfl
      | cons a as =>
        exfalso
        apply hbr
        unfold HasBlockReturnType
        rw [hm]
        simp
    obtain ⟨ra, hra, hres⟩ := bind_ok _ _ _ hres
    injection hres with hres
    injection hres with hs hg
    subst hg
    exact ⟨sig, conv, ra, hsig, hconv, hra, fun _ => hs.symm, fun hn => absurd hnil hn⟩

theorem tplBlock_none (fuel : Nat) (h : Helpers) (g : Generator) (m : method)
    (hb : m.blockArgs = []) : tplBlock fuel h g m = .ok ("", g) := by
  have hhas : ¬ (HasBlock m = true) := by
    unfold HasBlock
    rw [hb]
    decide
  unfold tplBlock
  rw [if_neg hhas]
  rfl

theorem GoArgs_shape (g : Generator) (m : method) (ga : String) (hga : GoArgs g m = .ok ga) :
    ∃ l, goArgsLoop g m 0 m.args = .ok l ∧
      (m.blockArgs ≠ [] → ga = Join (l ++ ["block__" ++ FuncName m]) ", ") ∧
      (m.blockArgs = [] → ga = Join l ", ") := by
  unfold GoArgs at hga
  obtain ⟨l, hl, hga⟩ := bind_ok _ _ _ hga
  injection hga with hga
  refine ⟨l, hl, ?_, ?_⟩
  · intro hb
    have hhas : HasBlock m = true := by
      unfold HasBlock
      exact decide_eq_true (List.length_pos.2 hb)
    rw [← hga, if_pos hhas]
  · intro hb
    have hhas : ¬ (HasBlock m = true) := by
      unfold HasBlock
      rw [hb]
      decide
    rw [← hga, if_neg hhas]

theorem tplMethod_ok (fuel : Nat) (h : Helpers) (g : Generator) (m : method)
    (hw : Renderable g m) (hc : ChainsEnd fuel h g m) :
    ∃ glue g1 block g2, tplGlue fuel h g m = .ok (glue, g1) ∧
      tplBlock fuel h g1 m = .ok (block, g2) ∧
      tplMethod fuel h g m = .ok (glue ++ block ++ "\n\n", g2) := by
  obtain ⟨⟨glue, g1⟩, hglue⟩ := ok_of_no_fault _ (tplGlue_no_abort fuel h g m hw)
    (tplGlue_no_stall fuel h g m hc)
  have hf := tplGlue_frame fuel h g m glue g1 hglue
  obtain ⟨⟨block, g2⟩, hblock⟩ := ok_of_no_fault _
    (tplBlock_no_abort fuel h g1 m (hw.with_returnTypes hf.returnTypes_eq))
    (tplBlock_no_stall fuel h g1 m (hc.of_aliasMap hf.revTypeAliasMap_eq))
  refine ⟨glue, g1, block, g2, hglue, hblock, ?_⟩
  unfold tplMethod
  simp only [hglue, hblock, bind, Except.bind, pure, Except.pure]

theorem BlockSig_inv (m : method) (sig : String) (hsig : BlockSig m = .ok sig) :
    ∃ args, blockSigArgs m 0 m.blockArgs = .ok args ∧
      sig = "block__" ++ FuncName m ++ "(" ++ Join args ", " ++ ") ("
        ++ Join m.blockReturnTypes ", " ++ ")" := by
  unfold BlockSig at hsig
  obtain ⟨args, hargs, hsig⟩ := bind_ok _ _ _ hsig
  injection hsig with hsig
  exact ⟨args, hargs, hsig.symm⟩

/-! ## C11: when a trampoline is rendered -/

/-- C11, as stated, fails: a callback with no parameter and the return-type
list `["int"]` is present in the sense of the spec, yet no trampoline is
rendered, and the glue function has neither the enumerator check nor a
trampoline argument. -/
theorem trampoline_missing :
    silentCallbackMethod.blockReturnTypes ≠ [] ∧
    tplBlock 1 plainHelpers plainGenerator silentCallbackMethod = .ok ("", plainGenerator) ∧
    (tplMethod 1 plainHelpers plainGenerator silentCallbackMethod).toOption.map Prod.fst
      = some ("\n//export g_cmethod__f\nfunc g_cmethod__f(self uintptr) uintptr \x7b"
        ++ "\n\tpkg.f()"
        ++ "\n\treturn C.Qnil"
        ++ "\n\x7d\n\n") :=
  ⟨by decide, rfl, rfl⟩

/-- C11, amended. Rendering a well-formed descriptor whose alias chains end
emits a trampoline exactly when there is at least one callback parameter.
With `blockArgs` non-empty the text after the glue function is
`func block__<FuncName>(...) (...) {` with its body, the glue function has the
enumerator check right after its signature, and the last argument of the
native call is `block__<FuncName>`.  With `blockArgs` empty, whatever
`blockReturnTypes` holds, nothing is emitted after the glue function, the
signature is followed directly by the receiver line and the parameter
conversions, and the native call gets the parameters only. -/
theorem trampoline_iff_blockArgs (fuel : Nat) (h : Helpers) (g : Generator) (m : method)
    (hw : WellFormed g m) (hc : ChainsEnd fuel h g m) :
    ∃ glue g1 block g2 pro recv conv l ga lhs tail,
      tplGlue fuel h g m = .ok (glue, g1) ∧ tplBlock fuel h g1 m = .ok (block, g2) ∧
      tplMethod fuel h g m = .ok (glue ++ block ++ "\n\n", g2) ∧
      receiverLine g m = .ok recv ∧ rangeArgs fuel h g m 0 m.args = .ok conv ∧
      goArgsLoop g m 0 m.args = .ok l ∧ GoArgs g m = .ok ga ∧
      glue = pro ++ "\n\t" ++ lhs ++ (FnReceiver g m ++ "." ++ Name h m ++ "(" ++ ga ++ ")")
        ++ tail ∧
      (m.blockArgs ≠ [] →
        pro = glueHead m ++ enumCheck h g m ++ recv ++ conv ∧
        ga = Join (l ++ ["block__" ++ FuncName m]) ", " ∧
        ∃ args body, blockSigArgs m 0 m.blockArgs = .ok args ∧
          block = "\n\nfunc " ++ ("block__" ++ FuncName m ++ "(" ++ Join args ", " ++ ") ("
            ++ Join m.blockReturnTypes ", " ++ ")") ++ " \x7b" ++ body ++ "\n\x7d") ∧
      (m.blockArgs = [] →
        pro = glueHead m ++ "" ++ recv ++ conv ∧ ga = Join l ", " ∧
        block = "" ∧ g2 = g1) := by
  obtain ⟨glue, g1, block, g2, hglue, hblock, hall⟩ := tplMethod_ok fuel h g m hw.renderable hc
  obtain ⟨pro, call, lhs, tail, hpro, hcall, hshape⟩ := tplGlue_inv fuel h g m glue g1 hglue
  obtain ⟨recv, conv, hrecv, hconv, hproeq⟩ := gluePrologue_inv fuel h g m pro hpro
  unfold nativeCall at hcall
  obtain ⟨ga, hga, hcall⟩ := bind_ok _ _ _ hcall
  injection hcall with hcall
  obtain ⟨l, hl, hga1, hga0⟩ := GoArgs_shape g m ga hga
  refine ⟨glue, g1, block, g2, pro, recv, conv, l, ga, lhs, tail, hglue, hblock, hall,
    hrecv, hconv, hl, hga, ?_, ?_, ?_⟩
  · rw [hcall]; exact hshape
  · intro hb
    have hhas : HasBlock m = true := by
      unfold HasBlock
      exact decide_eq_true (List.length_pos.2 hb)
    rw [if_pos hhas] at hproeq
    refine ⟨hproeq, hga1 hb, ?_⟩
    obtain ⟨sig, bconv, ra, hsig, _, _, hnil, hcons⟩ := tplBlock_inv fuel h g1 m hb block g2 hblock
    obtain ⟨args, hargs, hsigeq⟩ := BlockSig_inv m sig hsig
    subst hsigeq
    by_cases hr : m.blockReturnTypes = []
    · exact ⟨args, bconv ++ "\n\tgorb.Yield(" ++ ra ++ ")", hargs, by
        rw [hnil hr]; simp only [String.append_assoc]; rfl⟩
    · obtain ⟨rt, _, hs⟩ := hcons hr
      exact ⟨args, bconv ++ "\n\tret := gorb.Yield(" ++ ra ++ ")\n\treturn " ++ rt, hargs, by
        rw [hs]; simp only [String.append_assoc]⟩
  · intro hb
    have hhas : ¬ (HasBlock m = true) := by
      unfold HasBlock
      rw [hb]
      decide
    rw [if_neg hhas] at hproeq
    have hnone := tplBlock_none fuel h g1 m hb
    rw [hnone] at hblock
    injection hblock with hblock
    injection hblock with hb1 hb2
    exact ⟨hproeq, hga0 hb, hb1.symm, hb2.symm⟩

theorem wellFormed_plain (m : method) (ha : m.args.length = m.argTypes.length)
    (hb : m.blockArgs.length = m.blockArgTypes.length) (hd : 0 ≤ m.indirection)
    (ho : ¬ (m.scope = scope.classScope ∧ m.ctor = false) → ∃ c, m.cls = some c) :
    WellFormed plainGenerator m :=
  { argsAligned := ha
    blockAligned := hb
    depth := hd
    owner := ho
    pairs := fun _ => rfl }

theorem chainsEnd_plain (fuel : Nat) (g : Generator) (m : method) :
    ChainsEnd fuel plainHelpers g m :=
  fun _ _ he => Bool.noConfusion he

/-- The module function `each` has one callback parameter: it is well formed,
and its rendering has the trampoline, the enumerator check and the trampoline
argument. -/
theorem trampoline_iff_blockArgs_witness :
    WellFormed plainGenerator eachMethod ∧
    ChainsEnd 1 plainHelpers plainGenerator eachMethod ∧
    ∃ glue g1 block g2 pro recv conv l ga lhs tail,
      tplGlue 1 plainHelpers plainGenerator eachMethod = .ok (glue, g1) ∧
      tplBlock 1 plainHelpers g1 eachMethod = .ok (block, g2) ∧
      tplMethod 1 plainHelpers plainGenerator eachMethod = .ok (glue ++ block ++ "\n\n", g2) ∧
      receiverLine plainGenerator eachMethod = .ok recv ∧
      rangeArgs 1 plainHelpers plainGenerator eachMethod 0 eachMethod.args = .ok conv ∧
      goArgsLoop plainGenerator eachMethod 0 eachMethod.args = .ok l ∧
      GoArgs plainGenerator eachMethod = .ok ga ∧
      glue = pro ++ "\n\t" ++ lhs
        ++ (FnReceiver plainGenerator eachMethod ++ "." ++ Name plainHelpers eachMethod
          ++ "(" ++ ga ++ ")") ++ tail ∧
      (eachMethod.blockArgs ≠ [] →
        pro = glueHead eachMethod ++ enumCheck plainHelpers plainGenerator eachMethod
          ++ recv ++ conv ∧
        ga = Join (l ++ ["block__" ++ FuncName eachMethod]) ", " ∧
        ∃ args body, blockSigArgs eachMethod 0 eachMethod.blockArgs = .ok args ∧
          block = "\n\nfunc " ++ ("block__" ++ FuncName eachMethod ++ "(" ++ Join args ", "
            ++ ") (" ++ Join eachMethod.blockReturnTypes ", " ++ ")") ++ " \x7b" ++ body
            ++ "\n\x7d") ∧
      (eachMethod.blockArgs = [] →
        pro = glueHead eachMethod ++ "" ++ recv ++ conv ∧ ga = Join l ", " ∧
        block = "" ∧ g2 = g1) :=
  ⟨wellFormed_plain eachMethod rfl rfl (by decide) (fun hn => absurd ⟨rfl, rfl⟩ hn),
   chainsEnd_plain 1 plainGenerator eachMethod,
   trampoline_iff_blockArgs 1 plainHelpers plainGenerator eachMethod
    (wellFormed_plain eachMethod rfl rfl (by decide) (fun hn => absurd ⟨rfl, rfl⟩ hn))
    (chainsEnd_plain 1 plainGenerator eachMethod)⟩

/-! ## C12: the cast that `typeToGo` writes -/

/-- C12. At indirection 0, for a type `typ` whose conversion list has `r` as
second entry, `typeToGo` returns `(T')(gorb.GoStruct(val))` when `r` is
`"GoStruct"`, where `T'` is `"*" + T` if `indirection(T) = 0` and `T` otherwise,
and the plain cast `T(gorb.r(val))` for any other routine.  Here `T` is `typ`
itself when `typ` is not exported, and otherwise `insertPkg` of the name `v`
that the alias loop ends at. -/
theorem typeToGo_cast_shape (fuel : Nat) (h : Helpers) (g : Generator) (m : method)
    (typ val r v T : String) (hind : m.indirection = 0)
    (hr : (g.returnTypes typ)[1]? = some r)
    (hv : h.isExported typ = true → aliasChase g.revTypeAliasMap fuel typ = some v)
    (hT : T = if h.isExported typ = true then h.insertPkg v g.pkg.name else typ) :
    typeToGo fuel h g m typ val = .ok
      (if r = "GoStruct" then
        "(" ++ (if h.indirection T = 0 then "*" ++ T else T) ++ ")("
          ++ ("gorb." ++ "GoStruct" ++ "(" ++ val ++ ")") ++ ")"
      else T ++ "(" ++ ("gorb." ++ r ++ "(" ++ val ++ ")") ++ ")") := by
  have hidx : index (g.returnTypes typ) 1 = .ok r := by
    unfold index
    rw [hr]
  have hname : castName fuel h g typ = .ok T := by
    unfold castName
    by_cases he : h.isExported typ = true
    · rw [if_pos he, hv he, hT, if_pos he]
    · rw [if_neg he, hT, if_neg he]
  have hamp : ampersands m.indirection = .ok "" := by
    rw [hind]
    rfl
  unfold typeToGo castExpr
  simp only [hidx, hname, hamp, bind, Except.bind, pure, Except.pure]
  by_cases hs : r = "GoStruct"
  · subst hs
    simp only [if_true, String.empty_append]
  · simp only [if_neg hs, String.empty_append]

/-- The type `Handle`, declared from `File`, is cast to `*pkg.File` after the
struct routine. -/
theorem typeToGo_cast_shape_witness :
    typeToGo 2 aliasHelpers aliasGenerator plainMethod "Handle" "x"
      = .ok ("(" ++ "*pkg.File" ++ ")(" ++ ("gorb." ++ "GoStruct" ++ "(" ++ "x" ++ ")")
        ++ ")") :=
  typeToGo_cast_shape 2 aliasHelpers aliasGenerator plainMethod "Handle" "x" "GoStruct"
    "File" "pkg.File" rfl rfl (fun _ => rfl) rfl

/-! ## C13: the alias loop -/

theorem aliasChase_skip (rev : String → String) :
    ∀ (k fuel : Nat) (typ : String), (∀ j, j < k → ¬ stops rev (rev^[j] typ)) →
      aliasChase rev (fuel + k) typ = aliasChase rev fuel (rev^[k] typ) := by
  intro k
  induction k with
  | zero => intro fuel typ _; rfl
  | succ k ih =>
    intro fuel typ hk
    have h0 : ¬ stops rev typ := hk 0 (Nat.succ_pos k)
    have hne : typ ≠ "" := fun hc => h0 (Or.inl hc)
    have hre : rev typ ≠ "" := fun hc => h0 (Or.inr hc)
    have hstep : aliasChase rev (fuel + k + 1) typ = aliasChase rev (fuel + k) (rev typ) := by
      simp only [aliasChase, if_neg hne, if_neg hre]
    rw [← Nat.add_assoc, hstep, ih fuel (rev typ), Function.iterate_succ_apply]
    intro j hj
    rw [← Function.iterate_succ_apply]
    exact hk (j + 1) (Nat.succ_lt_succ hj)

theorem aliasChase_at_stop (rev : String → String) (fuel : Nat) (v : String)
    (hs : stops rev v) : aliasChase rev (fuel + 1) v = some v := by
  unfold aliasChase
  by_cases hv : v = ""
  · rw [if_pos hv]
  · rw [if_neg hv]
    rcases hs with hs | hs
    · exact absurd hs hv
    · rw [if_pos hs]

/-- C13. For a type name that is not exported `typeToGo` makes no alias lookup:
the cast name is `typ` for every fuel and every alias map.  For an exported
`typ` whose chain reaches, after `k` steps and not earlier, a name at which
the loop stops, the loop ends there with any fuel above `k` (and with no
smaller fuel), every run that ends gives that same name, the name has no
alias when `typ` is not empty, and it is the name that `insertPkg` qualifies.
A chain that reaches such a name at all has a first one, so its loop ends
with enough fuel.  If the chain never reaches such a name (as in a cycle), the
loop does not end for any fuel. -/
theorem alias_chase_ends (h : Helpers) (g : Generator) (typ : String) :
    (h.isExported typ = false → ∀ fuel, castName fuel h g typ = .ok typ) ∧
    (∀ k, stops g.revTypeAliasMap (g.revTypeAliasMap^[k] typ) →
      (∀ j, j < k → ¬ stops g.revTypeAliasMap (g.revTypeAliasMap^[j] typ)) →
      (∀ fuel, k < fuel →
        aliasChase g.revTypeAliasMap fuel typ = some (g.revTypeAliasMap^[k] typ)) ∧
      (∀ fuel, fuel ≤ k → aliasChase g.revTypeAliasMap fuel typ = none) ∧
      (∀ fuel v, aliasChase g.revTypeAliasMap fuel typ = some v →
        v = g.revTypeAliasMap^[k] typ) ∧
      (typ ≠ "" → g.revTypeAliasMap^[k] typ ≠ "" ∧
        g.revTypeAliasMap (g.revTypeAliasMap^[k] typ) = "") ∧
      (h.isExported typ = true → ∀ fuel, k < fuel →
        castName fuel h g typ = .ok (h.insertPkg (g.revTypeAliasMap^[k] typ) g.pkg.name))) ∧
    ((∃ k, stops g.revTypeAliasMap (g.revTypeAliasMap^[k] typ)) →
      ∃ k0 v, ∀ fuel, k0 < fuel → aliasChase g.revTypeAliasMap fuel typ = some v) ∧
    ((∀ k, ¬ stops g.revTypeAliasMap (g.revTypeAliasMap^[k] typ)) →
      ∀ fuel, aliasChase g.revTypeAliasMap fuel typ = none ∧
        (h.isExported typ = true → castName fuel h g typ = .error .stall)) := by
  have hmain : ∀ k, stops g.revTypeAliasMap (g.revTypeAliasMap^[k] typ) →
      (∀ j, j < k → ¬ stops g.revTypeAliasMap (g.revTypeAliasMap^[j] typ)) →
      ∀ fuel, k < fuel →
        aliasChase g.revTypeAliasMap fuel typ = some (g.revTypeAliasMap^[k] typ) := by
    intro k hstop hmin fuel hlt
    obtain ⟨d, hd⟩ : ∃ d, fuel = (d + 1) + k := ⟨fuel - k - 1, by omega⟩
    rw [hd, aliasChase_skip g.revTypeAliasMap k (d + 1) typ hmin]
    exact aliasChase_at_stop _ d _ hstop
  refine ⟨?_, ?_, ?_, ?_⟩
  · intro he fuel
    unfold castName
    rw [he]
    rfl
  · intro k hstop hmin
    have hlow : ∀ fuel, fuel ≤ k → aliasChase g.revTypeAliasMap fuel typ = none := by
      intro fuel hle
      have hskip := aliasChase_skip g.revTypeAliasMap fuel 0 typ
        (fun j hj => hmin j (Nat.lt_of_lt_of_le hj hle))
      rw [Nat.zero_add] at hskip
      rw [hskip]
      rfl
    have hhigh : ∀ fuel, k < fuel →
        aliasChase g.revTypeAliasMap fuel typ = some (g.revTypeAliasMap^[k] typ) := by
      intro fuel hlt
      obtain ⟨d, hd⟩ : ∃ d, fuel = (d + 1) + k := ⟨fuel - k - 1, by omega⟩
      rw [hd, aliasChase_skip g.revTypeAliasMap k (d + 1) typ hmin]
      exact aliasChase_at_stop _ d _ hstop
    refine ⟨hhigh, hlow, ?_, ?_, ?_⟩
    · intro fuel v hv
      by_cases hle : fuel ≤ k
      · rw [hlow fuel hle] at hv
        cases hv
      · rw [hhigh fuel (Nat.lt_of_not_le hle)] at hv
        injection hv with hv
        exact hv.symm
    · intro hne
      have hnonempty : g.revTypeAliasMap^[k] typ ≠ "" := by
        cases k with
        | zero => exact hne
        | succ k =>
          rw [Function.iterate_succ_apply']
          intro hc
          exact hmin k (Nat.lt_succ_self k) (Or.inr hc)
      refine ⟨hnonempty, ?_⟩
      rcases hstop with hs | hs
      · exact absurd hs hnonempty
      · exact hs
    · intro he fuel hlt
      unfold castName
      rw [if_pos he, hhigh fuel hlt]
  · intro hex
    classical
    exact ⟨Nat.find hex, _, hmain (Nat.find hex) (Nat.find_spec hex)
      (fun j hj => Nat.find_min hex hj)⟩
  · intro hnever fuel
    have hnone : aliasChase g.revTypeAliasMap fuel typ = none := by
      have hskip := aliasChase_skip g.revTypeAliasMap fuel 0 typ (fun j _ => hnever j)
      rw [Nat.zero_add] at hskip
      rw [hskip]
      rfl
    refine ⟨hnone, ?_⟩
    intro he
    unfold castName
    rw [if_pos he, hnone]

theorem cycle_never_stops :
    ∀ k, ¬ stops aliasGenerator.revTypeAliasMap (aliasGenerator.revTypeAliasMap^[k] "A") := by
  have hab : ∀ k, aliasGenerator.revTypeAliasMap^[k] "A" = "A" ∨
      aliasGenerator.revTypeAliasMap^[k] "A" = "B" := by
    intro k
    induction k with
    | zero => exact Or.inl rfl
    | succ k ih =>
      rw [Function.iterate_succ_apply']
      rcases ih with ih | ih
      · rw [ih]; exact Or.inr rfl
      · rw [ih]; exact Or.inl rfl
  intro k hs
  rcases hab k with hk | hk
  · rw [hk] at hs
    revert hs
    unfold stops
    decide
  · rw [hk] at hs
    revert hs
    unfold stops
    decide

/-- The chain of `Handle` ends at `File` after one step, so two units of fuel
give the cast name `pkg.File`; the chain of `A`, which cycles through `B`,
never ends. -/
theorem alias_chase_ends_witness :
    castName 2 aliasHelpers aliasGenerator "Handle" = .ok "pkg.File" ∧
    ∀ fuel, aliasChase aliasGenerator.revTypeAliasMap fuel "A" = none ∧
      (aliasHelpers.isExported "A" = true →
        castName fuel aliasHelpers aliasGenerator "A" = .error .stall) :=
  ⟨((alias_chase_ends aliasHelpers aliasGenerator "Handle").2.1 1 (Or.inr rfl)
      (fun j hj hs => by
        have hj0 : j = 0 := by omega
        subst hj0
        revert hs
        unfold stops
        decide)).2.2.2.2 rfl 2 (by decide),
   (alias_chase_ends aliasHelpers aliasGenerator "A").2.2.2 cycle_never_stops⟩

/-! ## C14: which imports `ReturnTypeToRuby` marks as used -/

/-- C14. When `returnTypes` is non-empty, the resolved return class is not a
non-empty exported name and the resolved first return type `r` is external,
`ReturnTypeToRuby` returns
`gorb.StructValue(gorb.ObjAtPath("<importToModule(r)>"), unsafe.Pointer(P))`
with `P` being `&ret` at indirection 0 and `ret` otherwise, and a generator in
which `usedImports` is true at `imports[packageName(r)]` and as before at every
other key, nothing else being changed.  In every other case (no return type,
an owned class, a primitive type) a returning `ReturnTypeToRuby` hands back
the generator it got. -/
theorem import_marking (h : Helpers) (g : Generator) (m : method) :
    (m.returnTypes ≠ [] →
      ¬ (ResolvedReturnClass g m ≠ "" ∧ h.isExported (ResolvedReturnClass g m) = true) →
      h.isExternal (ResolvedReturnType g m) = true →
      ∃ g1, ReturnTypeToRuby h g m = .ok
          ("gorb.StructValue(gorb.ObjAtPath(\"" ++ g.importToModule (ResolvedReturnType g m)
            ++ "\"), unsafe.Pointer(" ++ (if m.indirection = 0 then "&" ++ "ret" else "ret")
            ++ "))", g1) ∧
        g1.pkg.usedImports (g.pkg.imports (h.packageName (ResolvedReturnType g m))) = true ∧
        (∀ k, k ≠ g.pkg.imports (h.packageName (ResolvedReturnType g m)) →
          g1.pkg.usedImports k = g.pkg.usedImports k) ∧
        Frame g g1) ∧
    ((m.returnTypes = [] ∨
        (ResolvedReturnClass g m ≠ "" ∧ h.isExported (ResolvedReturnClass g m) = true) ∨
        h.isExternal (ResolvedReturnType g m) = false) →
      ∀ s g1, ReturnTypeToRuby h g m = .ok (s, g1) → g1 = g) := by
  refine ⟨?_, ?_⟩
  · intro hne hown hext
    have h0 : ¬ (m.returnTypes.length = 0) := fun hl => hne (List.length_eq_zero.1 hl)
    refine ⟨markUsed g (g.pkg.imports (h.packageName (ResolvedReturnType g m))), ?_, ?_, ?_,
      markUsed_frame g _⟩
    · unfold ReturnTypeToRuby
      rw [if_neg h0]
      dsimp only
      rw [if_neg hown, if_pos hext]
      rfl
    · unfold markUsed
      simp only [if_true]
    · intro k hk
      unfold markUsed
      simp only [if_neg hk]
  · intro hcase s g1 hres
    unfold ReturnTypeToRuby at hres
    split at hres
    · injection hres with hres
      injection hres with _ hg
      exact hg.symm
    · rename_i h0
      dsimp only at hres
      split at hres
      · injection hres with hres
        injection hres with _ hg
        exact hg.symm
      · rename_i hown
        split at hres
        · rename_i hext
          rcases hcase with hc | hc | hc
          · rw [hc] at h0
            exact absurd rfl h0
          · exact absurd hc hown
          · rw [hext] at hc
            cases hc
        · obtain ⟨t0, _, hres⟩ := bind_ok _ _ _ hres
          injection hres with hres
          injection hres with _ hg
          exact hg.symm

/-- Rendering the return of `stdin`, of the external type `os.File`, marks
the entry `os` of `usedImports` and leaves every other entry as it was. -/
theorem import_marking_witness :
    ∃ g1, ReturnTypeToRuby externalHelpers plainGenerator stdinMethod = .ok
        ("gorb.StructValue(gorb.ObjAtPath(\"" ++ "os.File" ++ "\"), unsafe.Pointer("
          ++ "&ret" ++ "))", g1) ∧
      g1.pkg.usedImports "os" = true ∧
      (∀ k, k ≠ "os" → g1.pkg.usedImports k = plainGenerator.pkg.usedImports k) ∧
      Frame plainGenerator g1 :=
  (import_marking externalHelpers plainGenerator stdinMethod).1 (by decide)
    (fun hown => absurd hown.2 (by decide)) rfl

/-! ## Rendering does not read the output buffers -/

theorem rangeArgs_buffers (fuel : Nat) (h : Helpers) (g : Generator) (m : method)
    (i : String) (p : List (String × Nat)) :
    ∀ (vs : List String) (k : Nat),
      rangeArgs fuel h (withBuffers g i p) m k vs = rangeArgs fuel h g m k vs := by
  intro vs
  induction vs with
  | nil => intro k; rfl
  | cons v vs ih =>
    intro k
    have harg : ArgToGo fuel h (withBuffers g i p) m k = ArgToGo fuel h g m k := rfl
    simp only [rangeArgs, harg, ih]

theorem goArgsLoop_buffers (g : Generator) (m : method)
    (i : String) (p : List (String × Nat)) :
    ∀ (as : List String) (k : Nat),
      goArgsLoop (withBuffers g i p) m k as = goArgsLoop g m k as := by
  intro as
  induction as with
  | nil => intro k; rfl
  | cons a as ih =>
    intro k
    have hv : (withBuffers g i p).isValueType = g.isValueType := rfl
    simp only [goArgsLoop, hv, ih]

theorem rbBlockArgsLoop_buffers (g : Generator) (m : method)
    (i : String) (p : List (String × Nat)) :
    ∀ (as : List String) (k : Nat),
      rbBlockArgsLoop (withBuffers g i p) m k as = rbBlockArgsLoop g m k as := by
  intro as
  induction as with
  | nil => intro k; rfl
  | cons a as ih =>
    intro k
    have hv : (withBuffers g i p).isValueType = g.isValueType := rfl
    simp only [rbBlockArgsLoop, hv, ih]

theorem gluePrologue_buffers (fuel : Nat) (h : Helpers) (g : Generator) (m : method)
    (i : String) (p : List (String × Nat)) :
    gluePrologue fuel h (withBuffers g i p) m = gluePrologue fuel h g m := by
  have he : RubyEnumArgs h (withBuffers g i p) m = RubyEnumArgs h g m := rfl
  have hf : FnReceiver (withBuffers g i p) m = FnReceiver g m := rfl
  unfold gluePrologue
  simp only [rangeArgs_buffers, he, hf]

theorem nativeCall_buffers (h : Helpers) (g : Generator) (m : method)
    (i : String) (p : List (String × Nat)) :
    nativeCall h (withBuffers g i p) m = nativeCall h g m := by
  have hf : FnReceiver (withBuffers g i p) m = FnReceiver g m := rfl
  unfold nativeCall GoArgs
  simp only [goArgsLoop_buffers, hf]

theorem ReturnTypeToRuby_buffers (h : Helpers) (g : Generator) (m : method)
    (i : String) (p : List (String × Nat)) :
    ReturnTypeToRuby h (withBuffers g i p) m = onBuffers i p (ReturnTypeToRuby h g m) := by
  have e1 : ResolvedReturnClass (withBuffers g i p) m = ResolvedReturnClass g m := rfl
  have e2 : ResolvedReturnType (withBuffers g i p) m = ResolvedReturnType g m := rfl
  have e3 : (withBuffers g i p).returnTypes = g.returnTypes := rfl
  unfold ReturnTypeToRuby
  simp only [e1, e2, e3]
  by_cases h0 : m.returnTypes.length = 0
  · simp only [if_pos h0]; rfl
  · simp only [if_neg h0]
    by_cases ho : ResolvedReturnClass g m ≠ "" ∧ h.isExported (ResolvedReturnClass g m) = true
    · simp only [if_pos ho]; rfl
    · simp only [if_neg ho]
      by_cases hx : h.isExternal (ResolvedReturnType g m) = true
      · simp only [if_pos hx]; rfl
      · simp only [if_neg hx]
        cases index (g.returnTypes (ResolvedReturnType g m)) 0 <;> rfl

theorem BlockArgToRb_buffers (h : Helpers) (g : Generator) (m : method) (n : Nat)
    (i : String) (p : List (String × Nat)) :
    BlockArgToRb h (withBuffers g i p) m n = onBuffers i p (BlockArgToRb h g m n) := by
  have e1 : (withBuffers g i p).resolvedType = g.resolvedType := rfl
  have e3 : (withBuffers g i p).returnTypes = g.returnTypes := rfl
  unfold BlockArgToRb
  simp only [e1, e3]
  cases index m.blockArgs n with
  | error e => rfl
  | ok ret =>
    cases hty : index m.blockArgTypes n with
    | error e => rfl
    | ok typ =>
      simp only [bind, Except.bind]
      by_cases ho : g.resolvedType typ ≠ "" ∧ h.isExported (g.resolvedType typ) = true
      · simp only [if_pos ho]; rfl
      · simp only [if_neg ho]
        by_cases hx : h.isExternal (g.resolvedType typ) = true
        · simp only [if_pos hx]; rfl
        · simp only [if_neg hx]
          cases index (g.returnTypes typ) 0 <;> rfl

theorem rangeBlockArgs_buffers (h : Helpers) (m : method)
    (i : String) (p : List (String × Nat)) :
    ∀ (vs : List String) (g : Generator) (k : Nat),
      rangeBlockArgs h m (withBuffers g i p) k vs
        = onBuffers i p (rangeBlockArgs h m g k vs) := by
  intro vs
  induction vs with
  | nil => intro g k; rfl
  | cons v vs ih =>
    intro g k
    simp only [rangeBlockArgs, BlockArgToRb_buffers]
    cases BlockArgToRb h g m k with
    | error e => rfl
    | ok r =>
      obtain ⟨s, g1⟩ := r
      simp only [onBuffers, bind, Except.bind, ih]
      cases rangeBlockArgs h m g1 (k + 1) vs with
      | error e => rfl
      | ok r2 => rfl

theorem tplGlue_buffers (fuel : Nat) (h : Helpers) (g : Generator) (m : method)
    (i : String) (p : List (String × Nat)) :
    tplGlue fuel h (withBuffers g i p) m = onBuffers i p (tplGlue fuel h g m) := by
  unfold tplGlue
  simp only [gluePrologue_buffers, nativeCall_buffers, ReturnTypeToRuby_buffers]
  cases gluePrologue fuel h g m with
  | error e => rfl
  | ok pro =>
    simp only [bind, Except.bind]
    split
    · cases ReceiverVars m with
      | error e => rfl
      | ok rv =>
        cases nativeCall h g m with
        | error e => rfl
        | ok call =>
          cases RaiseError m with
          | error e => rfl
          | ok re =>
            cases ReturnTypeToRuby h g m with
            | error e => rfl
            | ok r => rfl
    · cases nativeCall h g m with
      | error e => rfl
      | ok call =>
        cases RaiseError m with
        | error e => rfl
        | ok re => rfl

theorem tplBlock_buffers (fuel : Nat) (h : Helpers) (g : Generator) (m : method)
    (i : String) (p : List (String × Nat)) :
    tplBlock fuel h (withBuffers g i p) m = onBuffers i p (tplBlock fuel h g m) := by
  have hra : ∀ g1 : Generator, RbBlockArgs (withBuffers g1 i p) m = RbBlockArgs g1 m := by
    intro g1
    unfold RbBlockArgs
    simp only [rbBlockArgsLoop_buffers]
  have hrt : ∀ g1 : Generator, BlockReturnTypeToGo fuel h (withBuffers g1 i p) m
      = BlockReturnTypeToGo fuel h g1 m := fun _ => rfl
  unfold tplBlock
  split
  · simp only [rangeBlockArgs_buffers]
    cases BlockSig m with
    | error e => rfl
    | ok sig =>
      simp only [bind, Except.bind]
      cases rangeBlockArgs h m g 0 (BlockArgsList m) with
      | error e => rfl
      | ok r =>
        obtain ⟨conv, g1⟩ := r
        simp only [onBuffers, hra, hrt]
        split
        · cases RbBlockArgs g1 m with
          | error e => rfl
          | ok ra =>
            cases BlockReturnTypeToGo fuel h g1 m with
            | error e => rfl
            | ok rt => rfl
        · cases RbBlockArgs g1 m with
          | error e => rfl
          | ok ra => rfl
  · rfl

theorem tplMethod_buffers (fuel : Nat) (h : Helpers) (g : Generator) (m : method)
    (i : String) (p : List (String × Nat)) :
    tplMethod fuel h (withBuffers g i p) m = onBuffers i p (tplMethod fuel h g m) := by
  unfold tplMethod
  simp only [tplGlue_buffers]
  cases tplGlue fuel h g m with
  | error e => rfl
  | ok r =>
    obtain ⟨glue, g1⟩ := r
    simp only [onBuffers, bind, Except.bind, tplBlock_buffers]
    cases tplBlock fuel h g1 m with
    | error e => rfl
    | ok r2 => rfl

theorem write_unfold (fuel : Nat) (h : Helpers) (g : Generator) (m : method) :
    write fuel h g m = (registration h g m >>= fun line =>
      tplMethod fuel h
        (withBuffers g (g.init ++ line) (g.preamble ++ [(FuncName m, m.args.length)])) m
      >>= fun r => pure { r.2 with methods := r.2.methods ++ r.1 }) :=
  rfl

/-- What `write` returns, from the registration line and the rendering of the
template on the generator it was given. -/
theorem write_eq (fuel : Nat) (h : Helpers) (g : Generator) (m : method) :
    write fuel h g m = (do
      let line ← registration h g m
      let (text, g2) ← tplMethod fuel h g m
      pure { withBuffers g2 (g.init ++ line) (g.preamble ++ [(FuncName m, m.args.length)])
        with methods := g.methods ++ text }) := by
  rw [write_unfold]
  cases registration h g m with
  | error e => rfl
  | ok line =>
    simp only [bind, Except.bind, tplMethod_buffers]
    cases hres : tplMethod fuel h g m with
    | error e => rfl
    | ok r =>
      obtain ⟨text, g2⟩ := r
      have hf := tplMethod_frame fuel h g m text g2 hres
      simp only [onBuffers, pure, Except.pure]
      have hm : (withBuffers g2 (g.init ++ line)
          (g.preamble ++ [(FuncName m, m.args.length)])).methods = g.methods := hf.methods_eq
      rw [hm]

/-! ## C15: which malformed descriptors make `write` fail -/

theorem rangeArgs_ok_bound (fuel : Nat) (h : Helpers) (g : Generator) (m : method) :
    ∀ (vs : List String) (i : Nat) (s : String), rangeArgs fuel h g m i vs = .ok s →
      vs ≠ [] → i + vs.length ≤ m.argTypes.length := by
  intro vs
  induction vs with
  | nil => intro i s _ hne; exact absurd rfl hne
  | cons v vs ih =>
    intro i s hres _
    unfold rangeArgs at hres
    obtain ⟨c, hc, hres⟩ := bind_ok _ _ _ hres
    obtain ⟨rest, hrest, _⟩ := bind_ok _ _ _ hres
    unfold ArgToGo at hc
    obtain ⟨typ, htyp, _⟩ := bind_ok _ _ _ hc
    have hlt := index_ok_lt _ _ _ htyp
    simp only [List.length_cons]
    cases vs with
    | nil => simp only [List.length_nil]; omega
    | cons w ws =>
      have := ih (i + 1) rest hrest (List.cons_ne_nil w ws)
      simp only [List.length_cons] at this ⊢
      omega

theorem blockSigArgs_ok_bound (m : method) :
    ∀ (ns : List String) (i : Nat) (l : List String), blockSigArgs m i ns = .ok l →
      ns ≠ [] → i + ns.length ≤ m.blockArgTypes.length := by
  intro ns
  induction ns with
  | nil => intro i l _ hne; exact absurd rfl hne
  | cons n ns ih =>
    intro i l hres _
    unfold blockSigArgs at hres
    obtain ⟨t, ht, hres⟩ := bind_ok _ _ _ hres
    obtain ⟨rest, hrest, _⟩ := bind_ok _ _ _ hres
    have hlt := index_ok_lt _ _ _ ht
    simp only [List.length_cons]
    cases ns with
    | nil => simp only [List.length_nil]; omega
    | cons w ws =>
      have := ih (i + 1) rest hrest (List.cons_ne_nil w ws)
      simp only [List.length_cons] at this ⊢
      omega

/-- C15, as stated, fails: a descriptor with more parameter types than
parameters, one with more callback parameter types than callback parameters,
and one whose callback signature is empty are all written without failure. -/
theorem write_accepts_malformed :
    extraTypeMethod.args.length ≠ extraTypeMethod.argTypes.length ∧
    (write 1 plainHelpers plainGenerator extraTypeMethod).toOption.map
        (fun g => (g.init, g.methods))
      = some ("\tgorb.DefineModuleFunction(g_pkg, \"f\", C.g_cmethod__f, 1)\n",
          "\n//export g_cmethod__f\nfunc g_cmethod__f(self, a uintptr) uintptr \x7b"
            ++ "\n\tgo_a := int(gorb.GoInt(a))\n\tpkg.f(go_a)\n\treturn C.Qnil\n\x7d\n\n") ∧
    extraBlockTypeMethod.blockArgs.length ≠ extraBlockTypeMethod.blockArgTypes.length ∧
    (write 1 plainHelpers plainGenerator extraBlockTypeMethod).toOption.map
        (fun g => g.init)
      = some "\tgorb.DefineModuleFunction(g_pkg, \"f\", C.g_cmethod__f, 0)\n" ∧
    plainMethod.blockArgs = [] ∧ plainMethod.blockReturnTypes = [] ∧
    (write 1 plainHelpers plainGenerator plainMethod).toOption.map
        (fun g => (g.init, g.methods))
      = some ("\tgorb.DefineModuleFunction(g_pkg, \"f\", C.g_cmethod__f, 0)\n",
          "\n//export g_cmethod__f\nfunc g_cmethod__f(self uintptr) uintptr \x7b"
            ++ "\n\tpkg.f()\n\treturn C.Qnil\n\x7d\n\n") :=
  ⟨by decide, rfl, by decide, rfl, rfl, rfl, rfl⟩

theorem write_not_ok_of_missing_type (fuel : Nat) (h : Helpers) (g : Generator) (m : method)
    (hlen : m.argTypes.length < m.args.length ∨
      m.blockArgTypes.length < m.blockArgs.length) :
    ∀ g1, write fuel h g m ≠ .ok g1 := by
  intro gw hres
  rw [write_eq] at hres
  obtain ⟨line, _, hres⟩ := bind_ok _ _ _ hres
  obtain ⟨⟨text, g2⟩, htext, _⟩ := bind_ok _ _ _ hres
  unfold tplMethod at htext
  obtain ⟨⟨glue, ga⟩, hglue, htext⟩ := bind_ok _ _ _ htext
  obtain ⟨⟨block, gb⟩, hblock, _⟩ := bind_ok _ _ _ htext
  rcases hlen with hl | hl
  · obtain ⟨pro, _, _, _, hpro, _, _⟩ := tplGlue_inv fuel h g m glue ga hglue
    obtain ⟨_, conv, _, hconv, _⟩ := gluePrologue_inv fuel h g m pro hpro
    have hne : m.args ≠ [] := by
      intro hn
      rw [hn] at hl
      exact Nat.not_lt_zero _ hl
    have := rangeArgs_ok_bound fuel h g m m.args 0 conv hconv hne
    omega
  · have hne : m.blockArgs ≠ [] := by
      intro hn
      rw [hn] at hl
      exact Nat.not_lt_zero _ hl
    obtain ⟨sig, _, _, hsig, _, _, _, _⟩ := tplBlock_inv fuel h ga m hne block gb hblock
    obtain ⟨args, hargs, _⟩ := BlockSig_inv m sig hsig
    have := blockSigArgs_ok_bound m m.blockArgs 0 args hargs hne
    omega

theorem write_ok_of_renderable (fuel : Nat) (h : Helpers) (g : Generator) (m : method)
    (hr : Renderable g m) (hc : ChainsEnd fuel h g m) :
    ∃ g1 line text, registration h g m = .ok line ∧ write fuel h g m = .ok g1 ∧
      g1.init = g.init ++ line ∧ g1.methods = g.methods ++ text := by
  obtain ⟨g1, hg1⟩ := ok_of_no_fault _ (write_no_abort fuel h g m hr)
    (write_no_stall fuel h g m hc)
  obtain ⟨line, text, hline, hinit, hmeth, _⟩ := write_ok_inv fuel h g m g1 hg1
  exact ⟨g1, line, text, hline, hg1, hinit, hmeth⟩

theorem renderable_plain (m : method) (ha : m.args.length ≤ m.argTypes.length)
    (hb : m.blockArgs.length ≤ m.blockArgTypes.length) (hd : 0 ≤ m.indirection)
    (ho : ¬ (m.scope = scope.classScope ∧ m.ctor = false) → ∃ c, m.cls = some c) :
    Renderable plainGenerator m :=
  { argsTyped := ha
    blockTyped := hb
    depth := hd
    owner := ho
    pairs := fun _ => rfl }

/-- C15, amended. A descriptor with fewer parameter types than parameters, or
fewer callback parameter types than callback parameters, is never written:
`write` returns no generator for any fuel, and it aborts when the alias chains
it follows end within the fuel.  A descriptor that has a type for every
parameter and every callback parameter, surplus types and an empty callback
signature included, is written without failure when it is `Renderable` (the
indirection is not negative, an owner is present unless the member is a
type-level non-constructor, every type has a conversion pair of two entries):
`write` never aborts, and once the alias chains end it returns a generator
with the registration line appended to `init` and the rendered text to
`methods`.  So, these other conditions given, `write` returns exactly when no
type is missing. -/
theorem write_fails_on_missing_type (fuel : Nat) (h : Helpers) (g : Generator) (m : method) :
    ((m.argTypes.length < m.args.length ∨ m.blockArgTypes.length < m.blockArgs.length) →
      (∀ g1, write fuel h g m ≠ .ok g1) ∧
      (ChainsEnd fuel h g m → write fuel h g m = .error .abort)) ∧
    (Renderable g m →
      write fuel h g m ≠ .error .abort ∧
      (ChainsEnd fuel h g m →
        ∃ g1 line text, registration h g m = .ok line ∧ write fuel h g m = .ok g1 ∧
          g1.init = g.init ++ line ∧ g1.methods = g.methods ++ text)) ∧
    (0 ≤ m.indirection →
      (¬ (m.scope = scope.classScope ∧ m.ctor = false) → ∃ c, m.cls = some c) →
      (∀ t, (g.returnTypes t).length = 2) → ChainsEnd fuel h g m →
      ((∃ g1, write fuel h g m = .ok g1) ↔
        (m.args.length ≤ m.argTypes.length ∧
          m.blockArgs.length ≤ m.blockArgTypes.length))) := by
  refine ⟨?_, ?_, ?_⟩
  · intro hlen
    have hnot := write_not_ok_of_missing_type fuel h g m hlen
    refine ⟨hnot, ?_⟩
    intro hc
    have hns := write_no_stall fuel h g m hc
    cases hw : write fuel h g m with
    | ok g1 => exact absurd hw (hnot g1)
    | error e =>
      cases e with
      | abort => rfl
      | stall => exact absurd hw hns
  · intro hr
    exact ⟨write_no_abort fuel h g m hr, write_ok_of_renderable fuel h g m hr⟩
  · intro hd ho hp hc
    constructor
    · intro hok
      obtain ⟨g1, hg1⟩ := hok
      by_contra hlen
      have hmiss : m.argTypes.length < m.args.length ∨
          m.blockArgTypes.length < m.blockArgs.length := by omega
      exact write_not_ok_of_missing_type fuel h g m hmiss g1 hg1
    · intro hlen
      obtain ⟨g1, _, _, _, hg1, _, _⟩ := write_ok_of_renderable fuel h g m
        { argsTyped := hlen.1, blockTyped := hlen.2, depth := hd, owner := ho, pairs := hp } hc
      exact ⟨g1, hg1⟩

/-- The member `f` with parameters `a`, `b` and the single type `int` is not
written: `write` aborts.  The member `f` with one parameter and two parameter
types, the member whose callback has one parameter and two parameter types,
and the member with an empty callback signature are written. -/
theorem write_fails_on_missing_type_witness :
    (missingTypeMethod.argTypes.length < missingTypeMethod.args.length ∨
      missingTypeMethod.blockArgTypes.length < missingTypeMethod.blockArgs.length) ∧
    ((∀ g1, write 1 plainHelpers plainGenerator missingTypeMethod ≠ .ok g1) ∧
      (ChainsEnd 1 plainHelpers plainGenerator missingTypeMethod →
        write 1 plainHelpers plainGenerator missingTypeMethod = .error .abort)) ∧
    Renderable plainGenerator extraTypeMethod ∧
    (∃ g1 line text, registration plainHelpers plainGenerator extraTypeMethod = .ok line ∧
      write 1 plainHelpers plainGenerator extraTypeMethod = .ok g1 ∧
      g1.init = plainGenerator.init ++ line ∧ g1.methods = plainGenerator.methods ++ text) ∧
    Renderable plainGenerator extraBlockTypeMethod ∧
    (∃ g1 line text,
      registration plainHelpers plainGenerator extraBlockTypeMethod = .ok line ∧
      write 1 plainHelpers plainGenerator extraBlockTypeMethod = .ok g1 ∧
      g1.init = plainGenerator.init ++ line ∧ g1.methods = plainGenerator.methods ++ text) ∧
    Renderable plainGenerator plainMethod ∧
    (∃ g1 line text, registration plainHelpers plainGenerator plainMethod = .ok line ∧
      write 1 plainHelpers plainGenerator plainMethod = .ok g1 ∧
      g1.init = plainGenerator.init ++ line ∧ g1.methods = plainGenerator.methods ++ text) :=
  ⟨Or.inl (by decide),
   (write_fails_on_missing_type 1 plainHelpers plainGenerator missingTypeMethod).1
    (Or.inl (by decide)),
   renderable_plain extraTypeMethod (by decide) (by decide) (by decide)
    (fun hn => absurd ⟨rfl, rfl⟩ hn),
   ((write_fails_on_missing_type 1 plainHelpers plainGenerator extraTypeMethod).2.1
      (renderable_plain extraTypeMethod (by decide) (by decide) (by decide)
        (fun hn => absurd ⟨rfl, rfl⟩ hn))).2
    (chainsEnd_plain 1 plainGenerator extraTypeMethod),
   renderable_plain extraBlockTypeMethod (by decide) (by decide) (by decide)
    (fun hn => absurd ⟨rfl, rfl⟩ hn),
   ((write_fails_on_missing_type 1 plainHelpers plainGenerator extraBlockTypeMethod).2.1
      (renderable_plain extraBlockTypeMethod (by decide) (by decide) (by decide)
        (fun hn => absurd ⟨rfl, rfl⟩ hn))).2
    (chainsEnd_plain 1 plainGenerator extraBlockTypeMethod),
   renderable_plain plainMethod (by decide) (by decide) (by decide)
    (fun hn => absurd ⟨rfl, rfl⟩ hn),
   ((write_fails_on_missing_type 1 plainHelpers plainGenerator plainMethod).2.1
      (renderable_plain plainMethod (by decide) (by decide) (by decide)
        (fun hn => absurd ⟨rfl, rfl⟩ hn))).2
    (chainsEnd_plain 1 plainGenerator plainMethod)⟩

/-! ## C16: scenario B, the fallible module function `open` -/

/-- C16. For the descriptor `open` (type-level, not a constructor, no owner,
parameter `path string`, return types `*File` and `error`, no callback), with
`underscore("open") = "open"`, `capitalize("open") = "Open"` and `*File` not
resolving to `bool`, whenever its glue function renders: the registration line
is `gorb.DefineModuleFunction(g_pkg, "open", C.g_cmethod__open, 1)`; the
template text is the signature, the conversion of `path`, the native call
`<pkg>.Open(...)` bound to `ret, err`, directly followed by
`gorb.RaiseError(err)` and the return statement, with no receiver line and no
trampoline; and `write` appends the line to `g.init` and the text to
`g.methods`. -/
theorem scenario_open (fuel : Nat) (h : Helpers) (g : Generator)
    (hu : h.underscore "open" = "open") (hcap : h.capitalize "open" = "Open")
    (hb : g.resolvedType "*File" ≠ "bool") (hw : GlueReady fuel h g openMethod) :
    ∃ conv ret g1,
      ArgToGo fuel h g openMethod 0 = .ok conv ∧
      ReturnTypeToRuby h g openMethod = .ok (ret, g1) ∧
      registration h g openMethod
        = .ok "\tgorb.DefineModuleFunction(g_pkg, \"open\", C.g_cmethod__open, 1)\n" ∧
      tplBlock fuel h g1 openMethod = .ok ("", g1) ∧
      tplMethod fuel h g openMethod = .ok
        ("\n//export g_cmethod__open\nfunc g_cmethod__open(self, path uintptr) uintptr \x7b"
          ++ ("\n\tgo_" ++ "path" ++ " := " ++ conv)
          ++ "\n\t" ++ "ret, err" ++ " := "
          ++ (g.pkg.name ++ "." ++ "Open" ++ "("
            ++ ((if g.isValueType "string" = true then "*" else "") ++ "go_" ++ "path") ++ ")")
          ++ "\n  gorb.RaiseError(err)"
          ++ "\n\treturn " ++ ret ++ "\n\x7d" ++ "\n\n", g1) ∧
      write fuel h g openMethod = .ok
        { withBuffers g1
            (g.init ++ "\tgorb.DefineModuleFunction(g_pkg, \"open\", C.g_cmethod__open, 1)\n")
            (g.preamble ++ [("g_cmethod__open", 1)]) with
          methods := g.methods ++
            ("\n//export g_cmethod__open\nfunc g_cmethod__open(self, path uintptr) uintptr \x7b"
              ++ ("\n\tgo_" ++ "path" ++ " := " ++ conv)
              ++ "\n\t" ++ "ret, err" ++ " := "
              ++ (g.pkg.name ++ "." ++ "Open" ++ "("
                ++ ((if g.isValueType "string" = true then "*" else "") ++ "go_" ++ "path")
                ++ ")")
              ++ "\n  gorb.RaiseError(err)"
              ++ "\n\treturn " ++ ret ++ "\n\x7d" ++ "\n\n") } := by
  obtain ⟨conv, hconv⟩ := ArgToGo_ok fuel h g openMethod hw 0 (by decide)
  obtain ⟨⟨ret, g1⟩, hret⟩ := ReturnTypeToRuby_ok fuel h g openMethod hw
  have hrt : ResolvedReturnType g openMethod = g.resolvedType "*File" := rfl
  have hruby : RubyName h g openMethod = "open" := by
    have hname : openMethod.name = "open" := rfl
    unfold RubyName
    rw [hname, hu, hrt]
    simp only [if_neg hb]
    rfl
  have hreg : registration h g openMethod
      = .ok "\tgorb.DefineModuleFunction(g_pkg, \"open\", C.g_cmethod__open, 1)\n" := by
    rw [(registration_branches h g openMethod).1 ⟨rfl, rfl⟩, hruby]
    rfl
  have hblock : tplBlock fuel h g1 openMethod = .ok ("", g1) :=
    tplBlock_none fuel h g1 openMethod rfl
  have hpro : gluePrologue fuel h g openMethod = .ok
      ("\n//export g_cmethod__open\nfunc g_cmethod__open(self, path uintptr) uintptr \x7b"
        ++ ("\n\tgo_" ++ "path" ++ " := " ++ conv)) := by
    have hrange : rangeArgs fuel h g openMethod 0 openMethod.args
        = .ok ("\n\tgo_" ++ "path" ++ " := " ++ conv ++ "") := by
      have hargs : openMethod.args = ["path"] := rfl
      rw [hargs]
      simp only [rangeArgs, hconv, bind, Except.bind, pure, Except.pure]
    have hrecv : receiverLine g openMethod = .ok "" := rfl
    have hhead : glueHead openMethod
        = "\n//export g_cmethod__open\nfunc g_cmethod__open(self, path uintptr) uintptr \x7b" :=
      rfl
    have hhas : HasBlock openMethod = false := rfl
    rw [gluePrologue_eq]
    simp only [hrecv, hrange, hhead, hhas, bind, Except.bind, pure, Except.pure,
      Bool.false_eq_true, if_false, String.append_empty]
  have hcall : nativeCall h g openMethod = .ok (g.pkg.name ++ "." ++ "Open" ++ "("
      ++ ((if g.isValueType "string" = true then "*" else "") ++ "go_" ++ "path") ++ ")") := by
    have hname : Name h openMethod = "Open" := by
      unfold Name
      exact hcap
    have hrecv : FnReceiver g openMethod = g.pkg.name := rfl
    have hgo : GoArgs g openMethod
        = .ok ((if g.isValueType "string" = true then "*" else "") ++ "go_" ++ "path") := rfl
    unfold nativeCall
    simp only [hgo, hname, hrecv, bind, Except.bind, pure, Except.pure]
  have hlast : openMethod.returnTypes.getLast? = some "error" := rfl
  have hglue : tplGlue fuel h g openMethod = .ok
      ("\n//export g_cmethod__open\nfunc g_cmethod__open(self, path uintptr) uintptr \x7b"
        ++ ("\n\tgo_" ++ "path" ++ " := " ++ conv)
        ++ "\n\t" ++ "ret, err" ++ " := "
        ++ (g.pkg.name ++ "." ++ "Open" ++ "("
          ++ ((if g.isValueType "string" = true then "*" else "") ++ "go_" ++ "path") ++ ")")
        ++ "\n  gorb.RaiseError(err)"
        ++ "\n\treturn " ++ ret ++ "\n\x7d", g1) := by
    have hhas : HasReturnType openMethod = true := rfl
    unfold tplGlue
    simp only [hpro, hhas, ReceiverVars_error _ hlast, hcall, RaiseError_error _ hlast, hret,
      if_true, bind, Except.bind, pure, Except.pure]
  have hall : tplMethod fuel h g openMethod = .ok
      ("\n//export g_cmethod__open\nfunc g_cmethod__open(self, path uintptr) uintptr \x7b"
        ++ ("\n\tgo_" ++ "path" ++ " := " ++ conv)
        ++ "\n\t" ++ "ret, err" ++ " := "
        ++ (g.pkg.name ++ "." ++ "Open" ++ "("
          ++ ((if g.isValueType "string" = true then "*" else "") ++ "go_" ++ "path") ++ ")")
        ++ "\n  gorb.RaiseError(err)"
        ++ "\n\treturn " ++ ret ++ "\n\x7d" ++ "\n\n", g1) := by
    unfold tplMethod
    simp only [hglue, hblock, bind, Except.bind, pure, Except.pure, String.append_empty]
  refine ⟨conv, ret, g1, hconv, hret, hreg, hblock, hall, ?_⟩
  rw [write_eq]
  simp only [hreg, hall, bind, Except.bind, pure, Except.pure]
  rfl

theorem glueReady_open : GlueReady 1 goHelpers plainGenerator openMethod :=
  { aligned := by decide
    owner := fun hs => absurd hs (by decide)
    depth := by decide
    pairs := fun _ _ => Nat.le_refl 2
    chase := fun _ _ he => Bool.noConfusion he
    retPair := fun _ => Nat.le_succ 1 }

/-- Scenario B holds for helper functions that capitalise the first letter and
a resolver that answers every type with the pair `Int`, `GoInt`. -/
theorem scenario_open_witness :
    goHelpers.underscore "open" = "open" ∧ goHelpers.capitalize "open" = "Open" ∧
    plainGenerator.resolvedType "*File" ≠ "bool" ∧
    GlueReady 1 goHelpers plainGenerator openMethod ∧
    ∃ conv ret g1,
      ArgToGo 1 goHelpers plainGenerator openMethod 0 = .ok conv ∧
      ReturnTypeToRuby goHelpers plainGenerator openMethod = .ok (ret, g1) ∧
      registration goHelpers plainGenerator openMethod
        = .ok "\tgorb.DefineModuleFunction(g_pkg, \"open\", C.g_cmethod__open, 1)\n" ∧
      tplBlock 1 goHelpers g1 openMethod = .ok ("", g1) ∧
      tplMethod 1 goHelpers plainGenerator openMethod = .ok
        ("\n//export g_cmethod__open\nfunc g_cmethod__open(self, path uintptr) uintptr \x7b"
          ++ ("\n\tgo_" ++ "path" ++ " := " ++ conv)
          ++ "\n\t" ++ "ret, err" ++ " := "
          ++ (plainGenerator.pkg.name ++ "." ++ "Open" ++ "("
            ++ ((if plainGenerator.isValueType "string" = true then "*" else "")
              ++ "go_" ++ "path") ++ ")")
          ++ "\n  gorb.RaiseError(err)"
          ++ "\n\treturn " ++ ret ++ "\n\x7d" ++ "\n\n", g1) ∧
      write 1 goHelpers plainGenerator openMethod = .ok
        { withBuffers g1
            (plainGenerator.init
              ++ "\tgorb.DefineModuleFunction(g_pkg, \"open\", C.g_cmethod__open, 1)\n")
            (plainGenerator.preamble ++ [("g_cmethod__open", 1)]) with
          methods := plainGenerator.methods ++
            ("\n//export g_cmethod__open\nfunc g_cmethod__open(self, path uintptr) uintptr \x7b"
              ++ ("\n\tgo_" ++ "path" ++ " := " ++ conv)
              ++ "\n\t" ++ "ret, err" ++ " := "
              ++ (plainGenerator.pkg.name ++ "." ++ "Open" ++ "("
                ++ ((if plainGenerator.isValueType "string" = true then "*" else "")
                  ++ "go_" ++ "path") ++ ")")
              ++ "\n  gorb.RaiseError(err)"
              ++ "\n\treturn " ++ ret ++ "\n\x7d" ++ "\n\n") } :=
  ⟨rfl, by decide, by decide, glueReady_open,
   scenario_open 1 goHelpers plainGenerator rfl (by decide) (by decide) glueReady_open⟩

/-! ## C17: scenario C, a callback that takes `line string` and returns nothing -/

theorem BlockArgToRb_ok (h : Helpers) (g : Generator) (m : method) (n : Nat)
    (a t : String) (ha : m.blockArgs[n]? = some a) (ht : m.blockArgTypes[n]? = some t)
    (hp : 1 ≤ (g.returnTypes t).length) : ∃ c g1, BlockArgToRb h g m n = .ok (c, g1) := by
  have h1 : 0 < (g.returnTypes t).length := hp
  unfold BlockArgToRb index
  simp only [ha, ht, bind, Except.bind, pure, Except.pure]
  split
  · exact ⟨_, _, rfl⟩
  · split
    · exact ⟨_, _, rfl⟩
    · have hidx := index_of_lt _ _ h1
      unfold index at hidx
      simp only [hidx]
      exact ⟨_, _, rfl⟩

/-- C17. For a callback with the one parameter `line string` and no return
type, the trampoline is `func block__<FuncName>(line string) () {`, the line
`rb_line := <BlockArgToRb 0>`, the statement `gorb.Yield(rb_line)` (with
`*rb_line` when `string` is a value type) and the closing brace: no `ret`, no
return statement, no return conversion.  The glue function, when it renders,
has the `gorb.EnumFor` check directly after its signature. -/
theorem scenario_yield (fuel : Nat) (h : Helpers) (g : Generator) (m : method)
    (hba : m.blockArgs = ["line"]) (hbt : m.blockArgTypes = ["string"])
    (hbr : m.blockReturnTypes = []) (hp : 1 ≤ (g.returnTypes "string").length) :
    ∃ c g1, BlockArgToRb h g m 0 = .ok (c, g1) ∧
      RbBlockArgs g1 m
        = .ok ((if g.isValueType "string" = true then "*" else "") ++ "rb_" ++ "line") ∧
      tplBlock fuel h g m = .ok
        ("\n\nfunc " ++ ("block__" ++ FuncName m ++ "(" ++ ("line" ++ " " ++ "string")
            ++ ") (" ++ "" ++ ")") ++ " \x7b"
          ++ ("\n\trb_" ++ "line" ++ " := " ++ c)
          ++ "\n\tgorb.Yield("
          ++ ((if g.isValueType "string" = true then "*" else "") ++ "rb_" ++ "line")
          ++ ")\n\x7d", g1) ∧
      (∀ pro, gluePrologue fuel h g m = .ok pro →
        ∃ rest, pro = glueHead m ++ enumCheck h g m ++ rest) ∧
      (GlueReady fuel h g m →
        ∃ rest, gluePrologue fuel h g m = .ok (glueHead m ++ enumCheck h g m ++ rest)) := by
  have hb : HasBlock m = true := by
    unfold HasBlock
    rw [hba]
    rfl
  have hnr : HasBlockReturnType m = false := by
    unfold HasBlockReturnType
    rw [hbr]
    rfl
  obtain ⟨c, g1, hc⟩ := BlockArgToRb_ok h g m 0 "line" "string" (by rw [hba]; rfl)
    (by rw [hbt]; rfl) hp
  have hf := BlockArgToRb_frame h g m 0 c g1 hc
  have hidx : index m.blockArgTypes 0 = .ok "string" := by
    rw [hbt]
    rfl
  have hsig : BlockSig m = .ok ("block__" ++ FuncName m ++ "(" ++ ("line" ++ " " ++ "string")
      ++ ") (" ++ "" ++ ")") := by
    unfold BlockSig
    rw [hba, hbr]
    simp only [blockSigArgs, hidx, Join, bind, Except.bind, pure, Except.pure]
  have hra : RbBlockArgs g1 m
      = .ok ((if g.isValueType "string" = true then "*" else "") ++ "rb_" ++ "line") := by
    unfold RbBlockArgs
    rw [hba]
    simp only [rbBlockArgsLoop, hidx, Join, hf.isValueType_eq, bind, Except.bind, pure,
      Except.pure]
  have hrange : rangeBlockArgs h m g 0 (BlockArgsList m)
      = .ok ("\n\trb_" ++ "line" ++ " := " ++ c, g1) := by
    unfold BlockArgsList
    rw [hba]
    simp only [rangeBlockArgs, hc, bind, Except.bind, pure, Except.pure, String.append_empty]
  have hinv : ∀ pro, gluePrologue fuel h g m = .ok pro →
      ∃ rest, pro = glueHead m ++ enumCheck h g m ++ rest := by
    intro pro hpro
    obtain ⟨recv, conv, _, _, heq⟩ := gluePrologue_inv fuel h g m pro hpro
    rw [if_pos hb] at heq
    exact ⟨recv ++ conv, by rw [heq, String.append_assoc]⟩
  refine ⟨c, g1, hc, hra, ?_, hinv, ?_⟩
  · unfold tplBlock
    simp only [hb, hnr, hsig, hrange, hra, if_true, Bool.false_eq_true, if_false, bind,
      Except.bind, pure, Except.pure]
  · intro hw
    obtain ⟨pro, hpro⟩ := gluePrologue_ok fuel h g m hw
    obtain ⟨rest, hrest⟩ := hinv pro hpro
    exact ⟨rest, by rw [hpro, hrest]⟩

/-- The module function `lines` has such a callback: its trampoline converts
`line` and yields `rb_line`. -/
theorem scenario_yield_witness :
    linesMethod.blockArgs = ["line"] ∧ linesMethod.blockArgTypes = ["string"] ∧
    linesMethod.blockReturnTypes = [] ∧ 1 ≤ (plainGenerator.returnTypes "string").length ∧
    ∃ c g1, BlockArgToRb plainHelpers plainGenerator linesMethod 0 = .ok (c, g1) ∧
      RbBlockArgs g1 linesMethod
        = .ok ((if plainGenerator.isValueType "string" = true then "*" else "")
          ++ "rb_" ++ "line") ∧
      tplBlock 1 plainHelpers plainGenerator linesMethod = .ok
        ("\n\nfunc " ++ ("block__" ++ FuncName linesMethod ++ "(" ++ ("line" ++ " " ++ "string")
            ++ ") (" ++ "" ++ ")") ++ " \x7b"
          ++ ("\n\trb_" ++ "line" ++ " := " ++ c)
          ++ "\n\tgorb.Yield("
          ++ ((if plainGenerator.isValueType "string" = true then "*" else "")
            ++ "rb_" ++ "line")
          ++ ")\n\x7d", g1) ∧
      (∀ pro, gluePrologue 1 plainHelpers plainGenerator linesMethod = .ok pro →
        ∃ rest, pro = glueHead linesMethod
          ++ enumCheck plainHelpers plainGenerator linesMethod ++ rest) ∧
      (GlueReady 1 plainHelpers plainGenerator linesMethod →
        ∃ rest, gluePrologue 1 plainHelpers plainGenerator linesMethod
          = .ok (glueHead linesMethod ++ enumCheck plainHelpers plainGenerator linesMethod
            ++ rest)) :=
  ⟨rfl, rfl, rfl, by decide,
   scenario_yield 1 plainHelpers plainGenerator linesMethod rfl rfl rfl (by decide)⟩

/-! ## C18: a descriptor without return class -/

/-- C18, as stated, fails: the member `dup` returns the exported class `File`
and names no return class; `ReturnTypeToRuby` converts the value with the
primitive routine instead of boxing it, while it boxes it as soon as
`returnClass` is `File`. -/
theorem returnClass_not_inferred :
    inferredMethod.returnClass = "" ∧
    fileHelpers.isExported (ResolvedReturnType fileGenerator inferredMethod) = true ∧
    ReturnTypeToRuby fileHelpers fileGenerator inferredMethod
      = .ok ("gorb.Int(ret))", fileGenerator) ∧
    ReturnTypeToRuby fileHelpers fileGenerator { inferredMethod with returnClass := "File" }
      = .ok ("gorb.StructValue(g_cFile, unsafe.Pointer(&ret))", fileGenerator) :=
  ⟨rfl, rfl, rfl, rfl⟩

/-- C18, amended. `ReturnTypeToRuby` takes the class from `returnClass` alone.
With an empty `returnClass` that resolves to the empty name and a non-empty
`returnTypes`, the result is the external form when the resolved first return
type is external and the primitive conversion `gorb.<t0>(ret))` otherwise,
whether or not that type is an exported class; the boxed form for a class `r`
is returned when `returnClass` resolves to the non-empty exported name `r`. -/
theorem returnClass_only_explicit (h : Helpers) (g : Generator) (m : method)
    (hne : m.returnTypes ≠ []) (hrc : m.returnClass = "") (hres : g.resolvedType "" = "") :
    (h.isExternal (ResolvedReturnType g m) = false →
      ∀ t0, (g.returnTypes (ResolvedReturnType g m))[0]? = some t0 →
        ReturnTypeToRuby h g m = .ok ("gorb." ++ t0 ++ "(" ++ "ret" ++ "))", g)) ∧
    (h.isExternal (ResolvedReturnType g m) = true →
      ReturnTypeToRuby h g m = .ok
        ("gorb.StructValue(gorb.ObjAtPath(\"" ++ g.importToModule (ResolvedReturnType g m)
          ++ "\"), unsafe.Pointer(" ++ (if m.indirection = 0 then "&" ++ "ret" else "ret")
          ++ "))",
          markUsed g (g.pkg.imports (h.packageName (ResolvedReturnType g m))))) ∧
    (∀ c r, g.resolvedType c = r → r ≠ "" → h.isExported r = true →
      ReturnTypeToRuby h g { m with returnClass := c } = .ok ("gorb.StructValue("
        ++ (match g.findClass r with
            | some k => k.VarName
            | none => "rb_cObject")
        ++ ", unsafe.Pointer(" ++ (if m.indirection = 0 then "&" ++ "ret" else "ret")
        ++ "))", g)) := by
  have h0 : ¬ (m.returnTypes.length = 0) := fun hl => hne (List.length_eq_zero.1 hl)
  have hown : ¬ (ResolvedReturnClass g m ≠ "" ∧
      h.isExported (ResolvedReturnClass g m) = true) := by
    unfold ResolvedReturnClass
    rw [hrc, hres]
    exact fun hc => hc.1 rfl
  refine ⟨?_, ?_, ?_⟩
  · intro hx t0 ht0
    have hidx : index (g.returnTypes (ResolvedReturnType g m)) 0 = .ok t0 := by
      unfold index
      rw [ht0]
    have hx2 : ¬ (h.isExternal (ResolvedReturnType g m) = true) := by
      rw [hx]
      exact Bool.false_ne_true
    unfold ReturnTypeToRuby
    rw [if_neg h0]
    dsimp only
    rw [if_neg hown, if_neg hx2]
    simp only [hidx, bind, Except.bind, pure, Except.pure]
  · intro hx
    unfold ReturnTypeToRuby
    rw [if_neg h0]
    dsimp only
    rw [if_neg hown, if_pos hx]
    rfl
  · intro c r hr hr0 hex
    have h1 : ¬ (({ m with returnClass := c } : method).returnTypes.length = 0) := h0
    have hcls : ResolvedReturnClass g { m with returnClass := c } = r := hr
    unfold ReturnTypeToRuby
    rw [if_neg h1]
    dsimp only
    rw [hcls, if_pos ⟨hr0, hex⟩]
    rfl

/-- The member `dup` without return class gets the primitive conversion, and
boxing needs the explicit return class `File`. -/
theorem returnClass_only_explicit_witness :
    inferredMethod.returnTypes ≠ [] ∧ inferredMethod.returnClass = "" ∧
    fileGenerator.resolvedType "" = "" ∧
    ReturnTypeToRuby fileHelpers fileGenerator inferredMethod
      = .ok ("gorb." ++ "Int" ++ "(" ++ "ret" ++ "))", fileGenerator) ∧
    ReturnTypeToRuby fileHelpers fileGenerator { inferredMethod with returnClass := "File" }
      = .ok ("gorb.StructValue(" ++ "g_cFile" ++ ", unsafe.Pointer(" ++ "&ret" ++ "))",
          fileGenerator) :=
  ⟨by decide, rfl, rfl,
   (returnClass_only_explicit fileHelpers fileGenerator inferredMethod (by decide) rfl rfl).1
      rfl "Int" rfl,
   (returnClass_only_explicit fileHelpers fileGenerator inferredMethod (by decide) rfl rfl).2.2
      "File" "File" rfl (by decide) rfl⟩

/-! ## C19: the method name handed to `gorb.EnumFor` -/

set_option maxRecDepth 100000 in
/-- C19 at the member `lines` of `File` with the override `each_line`: `write`
registers the method as `each_line`, the name `ExportRubyName` returns, while
the glue function hands `gorb.EnumFor` the name `lines` of `RubyName`. -/
theorem enumFor_name_differs :
    RubyName plainHelpers plainGenerator eachLineMethod = "lines" ∧
    ExportRubyName plainHelpers plainGenerator eachLineMethod = "each_line" ∧
    RubyEnumArgs plainHelpers plainGenerator eachLineMethod
      = "self, gorb.StringValue(\"lines\")" ∧
    registration plainHelpers plainGenerator eachLineMethod
      = .ok "\tgorb.DefineMethod(g_cFile, \"each_line\", C.g_imethod_File_lines, 0)\n" ∧
    (tplGlue 1 plainHelpers plainGenerator eachLineMethod).toOption.map Prod.fst
      = some ("\n//export g_imethod_File_lines\nfunc g_imethod_File_lines(self uintptr) uintptr \x7b"
        ++ "\n\tif e := gorb.EnumFor(self, gorb.StringValue(\"lines\")); e != C.Qnil \x7b"
        ++ "\n\t\treturn e\n\t\x7d"
        ++ "\n\tgo_obj := g_val2ptr_File(self)"
        ++ "\n\tgo_obj.lines(block__g_imethod_File_lines)"
        ++ "\n\treturn C.Qnil\n\x7d") :=
  ⟨rfl, rfl, rfl, rfl, rfl⟩

/-! ## C20: rendering a well-formed descriptor -/

/-- C20. For a well-formed descriptor `write` never aborts, whatever the fuel:
it evaluates no index out of range and no absent owner; and it returns a
generator as soon as the alias chains it follows end within the fuel.  The
guards are needed: called directly, `ReceiverVars` aborts on an empty
`returnTypes` (where `RaiseError` gives the empty string),
`BlockReturnTypeToGo` aborts on an empty `blockReturnTypes`, and `ClassName`
aborts without owner, which a well-formed descriptor allows for type-level
scope only, where no receiver line is rendered. -/
theorem write_total (fuel : Nat) (h : Helpers) (g : Generator) (m : method)
    (hw : WellFormed g m) :
    write fuel h g m ≠ .error .abort ∧
    (ChainsEnd fuel h g m → ∃ g1, write fuel h g m = .ok g1) ∧
    (m.returnTypes = [] → ReceiverVars m = .error .abort ∧ RaiseError m = .ok "") ∧
    (m.blockReturnTypes = [] → BlockReturnTypeToGo fuel h g m = .error .abort) ∧
    (m.cls = none → ClassName m = .error .abort ∧ m.scope = scope.classScope ∧
      receiverLine g m = .ok "") := by
  refine ⟨write_no_abort fuel h g m hw.renderable, ?_, ?_, ?_, ?_⟩
  · intro hc
    exact ok_of_no_fault _ (write_no_abort fuel h g m hw.renderable)
      (write_no_stall fuel h g m hc)
  · intro hr
    refine ⟨?_, ?_⟩
    · unfold ReceiverVars lastEntry
      rw [hr]
      rfl
    · apply RaiseError_plain
      rw [hr]
      simp
  · intro hr
    unfold BlockReturnTypeToGo index
    rw [hr]
    rfl
  · intro hn
    have hsc : m.scope = scope.classScope := by
      by_contra hs
      obtain ⟨c, hc⟩ := hw.owner (fun hm => hs hm.1)
      rw [hn] at hc
      cases hc
    refine ⟨?_, hsc, ?_⟩
    · unfold ClassName
      rw [hn]
    · unfold receiverLine Scope
      rw [hsc]
      rfl

/-- The module function `each`, which has a callback, is well formed and is
written. -/
theorem write_total_witness :
    WellFormed plainGenerator eachMethod ∧
    write 1 plainHelpers plainGenerator eachMethod ≠ .error .abort ∧
    ∃ g1, write 1 plainHelpers plainGenerator eachMethod = .ok g1 :=
  ⟨wellFormed_plain eachMethod rfl rfl (by decide) (fun hn => absurd ⟨rfl, rfl⟩ hn),
   (write_total 1 plainHelpers plainGenerator eachMethod
      (wellFormed_plain eachMethod rfl rfl (by decide) (fun hn => absurd ⟨rfl, rfl⟩ hn))).1,
   (write_total 1 plainHelpers plainGenerator eachMethod
      (wellFormed_plain eachMethod rfl rfl (by decide) (fun hn => absurd ⟨rfl, rfl⟩ hn))).2.1
      (chainsEnd_plain 1 plainGenerator eachMethod)⟩

end Codegen
